import Mathlib

/-!
# Horizon dashboard

A shallow embedding of the handlers of `src/App.jsx`,
`src/components/SettingsTab.jsx` and `src/components/PostsTab.jsx`.

React state is passed explicitly: a handler is a function from the component
state (and the remote store) to the new component state (and store).  Every
call to the remote store takes the transport outcome of that call as an
argument, so that both branches of each `if (error)` are reachable.
-/

namespace Horizon

/-! ## JavaScript values and plain objects -/

/-- The JavaScript values that occur in a settings record.  `num m e` is the
Number `m / 10^e`, so `30` is `num 30 0` and `0.7` is `num 7 1`. -/
inductive JsVal where
  | undefined : JsVal
  | null : JsVal
  | bool (b : Bool) : JsVal
  | num (m : Int) (e : Nat) : JsVal
  | str (s : String) : JsVal
  deriving DecidableEq, Repr

/-- Drop trailing zeros of a decimal `m / 10^e`. -/
def stripZeros : Nat → Nat → Nat × Nat
  | m, 0 => (m, 0)
  | m, e + 1 => if m % 10 = 0 then stripZeros (m / 10) e else (m, e + 1)

/-- Left-pad a digit string with zeros up to width `w`. -/
def padZeros (w : Nat) (s : String) : String :=
  String.mk (List.replicate (w - s.length) '0') ++ s

/-- Decimal rendering of the Number `m / 10^e`, as `String(x)` prints it. -/
def numToString (m : Int) (e : Nat) : String :=
  let sgn := if m < 0 then "-" else ""
  match stripZeros m.natAbs e with
  | (a, 0) => sgn ++ toString a
  | (a, k + 1) =>
    sgn ++ toString (a / 10 ^ (k + 1)) ++ "." ++ padZeros (k + 1) (toString (a % 10 ^ (k + 1)))

/-- `String(v)`, the conversion a template literal applies to `${v}`. -/
def JsVal.toStr : JsVal → String
  | .undefined => "undefined"
  | .null => "null"
  | .bool true => "true"
  | .bool false => "false"
  | .num m e => numToString m e
  | .str s => s

/-- Truthiness, as tested by `if (v)`, `!v` and `v || d`. -/
def JsVal.truthy : JsVal → Bool
  | .undefined => false
  | .null => false
  | .bool b => b
  | .num m _ => m != 0
  | .str s => s != ""

/-- `v || d`. -/
def JsVal.or (v d : JsVal) : JsVal := if v.truthy then v else d

/-- A plain object with string keys, in insertion order. -/
abbrev JsObject := List (String × JsVal)

namespace JsObject

/-- `o[k]`: the value of key `k`, `undefined` when the key is absent. -/
def get : JsObject → String → JsVal
  | [], _ => .undefined
  | (k, v) :: o, key => if k = key then v else get o key

/-- Whether `k` is an own key of `o`. -/
def hasKey (o : JsObject) (key : String) : Bool := o.any (fun kv => kv.1 == key)

/-- `{ ...o, [k]: v }`: an existing key keeps its position, a new key goes last. -/
def set : JsObject → String → JsVal → JsObject
  | [], key, val => [(key, val)]
  | (k, v) :: o, key, val => if k = key then (k, val) :: o else (k, v) :: set o key val

/-- `{ ...a, ...b }`. -/
def spread (a b : JsObject) : JsObject := b.foldl (fun o kv => set o kv.1 kv.2) a

/-- Rest destructuring `const { k1, ..., kn, ...rest } = o`: `o` without the keys `ks`. -/
def rest (ks : List String) (o : JsObject) : JsObject := o.filter (fun kv => !ks.contains kv.1)

end JsObject

/-! ## Rows of the remote store -/

/-- One entry of a post's audit log (`post.logs`). -/
structure LogEntry where
  timestamp : Nat
  level : String
  message : String
  deriving DecidableEq, Repr

/-- A row of the `posts` table, with the columns the dashboard reads or writes.
`created_at` is a time in milliseconds; `wordpress_id` is `none` for SQL NULL. -/
structure Post where
  id : Nat
  user_id : String
  rss_feed_id : Nat
  title : String
  summary : String
  content : String
  status : String
  wordpress_id : Option Nat
  logs : List LogEntry
  created_at : Nat
  deriving DecidableEq, Repr

/-- A row of the `rss_feeds` table. -/
structure Feed where
  id : Nat
  user_id : String
  name : String
  url : String
  category : String
  created_at : Nat
  deriving DecidableEq, Repr

/-- The `error` object of a store response. -/
structure StoreError where
  code : String
  message : String
  deriving DecidableEq, Repr

/-- The `{ data, error }` pair every store call resolves to. -/
structure Resp (α : Type) where
  data : Option α
  error : Option StoreError
  deriving Repr

/-- A response carrying data. -/
def Resp.ok {α : Type} (a : α) : Resp α := ⟨some a, none⟩

/-- A response carrying an error. -/
def Resp.fail {α : Type} (e : StoreError) : Resp α := ⟨none, some e⟩

/-- The error `.single()` reports when the result is not exactly one row. -/
def PGRST116 : StoreError :=
  ⟨"PGRST116", "JSON object requested, multiple (or no) rows returned"⟩

/-- The modifier `.single()`: the row if there is exactly one, else `PGRST116`. -/
def single {α : Type} : List α → Resp α
  | [r] => Resp.ok r
  | _ => Resp.fail PGRST116

/-- Modelled from the spec: the persistent store (`@/lib/customSupabaseClient`,
not among the sources), "CRUD + filtered/ordered read over Feeds, Posts,
Settings" with per-user scoping.  It holds the three tables the dashboard
addresses. -/
structure Store where
  user_settings : List JsObject
  posts : List Post
  rss_feeds : List Feed
  deriving Repr

namespace Store

/-- Modelled from the spec: a row as the store keeps it after an insert, namely
the inserted `payload` together with the columns `gen` the database fills in
(`id`, `created_at`, ...); a column present in the payload keeps the payload's value. -/
def completeRow (gen payload : JsObject) : JsObject :=
  payload ++ gen.filter (fun kv => !payload.hasKey kv.1)

/-- Modelled from the spec: `from('user_settings').select('*').eq('user_id', uid).single()`.
A call that fails in transit (`fault`) resolves to that error. -/
def selectSettings (fault : Option StoreError) (uid : String) (db : Store) : Resp JsObject :=
  match fault with
  | some e => Resp.fail e
  | none => single (db.user_settings.filter (fun r => r.get "user_id" == JsVal.str uid))

/-- Modelled from the spec: `from('user_settings').insert(payload).select().single()`.
A failed call leaves the table as it was. -/
def insertSettings (fault : Option StoreError) (gen payload : JsObject) (db : Store) :
    Resp JsObject × Store :=
  match fault with
  | some e => (Resp.fail e, db)
  | none =>
    let row := completeRow gen payload
    (Resp.ok row, { db with user_settings := db.user_settings ++ [row] })

/-- Modelled from the spec: `from('user_settings').update(patch).eq('user_id', uid)`. -/
def updateSettings (fault : Option StoreError) (patch : JsObject) (uid : String) (db : Store) :
    Option StoreError × Store :=
  match fault with
  | some e => (some e, db)
  | none =>
    (none, { db with user_settings := db.user_settings.map (fun r =>
      if r.get "user_id" == JsVal.str uid then JsObject.spread r patch else r) })

/-- Modelled from the spec:
`from('posts').select('*', { count: 'exact' }).eq('user_id', uid).order('created_at', { ascending: false })`:
the user's posts, newest first, and their number. -/
def selectPosts (fault : Option StoreError) (uid : String) (db : Store) :
    Resp (List Post) × Option Nat :=
  match fault with
  | some e => (Resp.fail e, none)
  | none =>
    let rows := (db.posts.filter (fun p => p.user_id == uid)).mergeSort
      (fun a b => decide (b.created_at ≤ a.created_at))
    (Resp.ok rows, some rows.length)

/-- Modelled from the spec:
`from('posts').update({ status, wordpress_id }).eq('id', postId).select().single()`.
The update is kept only when exactly one row matches; an error (in transit, or
`PGRST116` from `.single()`) leaves the table as it was. -/
def updatePost (fault : Option StoreError) (status : String) (wordpress_id : Nat)
    (postId : Nat) (db : Store) : Resp Post × Store :=
  match fault with
  | some e => (Resp.fail e, db)
  | none =>
    match db.posts.filter (fun p => p.id == postId) with
    | [p] =>
      (Resp.ok { p with status := status, wordpress_id := some wordpress_id },
       { db with posts := db.posts.map (fun q =>
          if q.id == postId then { q with status := status, wordpress_id := some wordpress_id }
          else q) })
    | _ => (Resp.fail PGRST116, db)

/-- Modelled from the spec: `from('posts').delete().eq('id', postId)`. -/
def deletePost (fault : Option StoreError) (postId : Nat) (db : Store) :
    Option StoreError × Store :=
  match fault with
  | some e => (some e, db)
  | none => (none, { db with posts := db.posts.filter (fun p => p.id != postId) })

/-- Modelled from the spec: `from('posts').delete().eq('rss_feed_id', feedId)`. -/
def deletePostsOfFeed (fault : Option StoreError) (feedId : Nat) (db : Store) :
    Option StoreError × Store :=
  match fault with
  | some e => (some e, db)
  | none => (none, { db with posts := db.posts.filter (fun p => p.rss_feed_id != feedId) })

/-- Modelled from the spec: `from('rss_feeds').delete().eq('id', feedId)`. -/
def deleteFeed (fault : Option StoreError) (feedId : Nat) (db : Store) :
    Option StoreError × Store :=
  match fault with
  | some e => (some e, db)
  | none => (none, { db with rss_feeds := db.rss_feeds.filter (fun f => f.id != feedId) })

/-- Modelled from the spec: `from('rss_feeds').insert(payload).select().single()`, the
database supplying `id` and `created_at` of the new row. -/
def insertFeed (fault : Option StoreError) (genId genCreatedAt : Nat)
    (name url category user_id : String) (db : Store) : Resp Feed × Store :=
  match fault with
  | some e => (Resp.fail e, db)
  | none =>
    let row : Feed := ⟨genId, user_id, name, url, category, genCreatedAt⟩
    (Resp.ok row, { db with rss_feeds := db.rss_feeds ++ [row] })

end Store

/-! ## `App.jsx` -/

/-- The argument of a `toast(...)` call. -/
structure Toast where
  title : String
  description : Option String
  variant : Option String
  deriving DecidableEq, Repr

/-- The `stats` state of `App`. -/
structure Stats where
  totalPosts : Nat
  publishedToday : Nat
  totalRevenue : JsVal
  avgCtr : JsVal
  deriving DecidableEq, Repr

/-- The constant `initialSettings`. -/
def initialSettings : JsObject :=
  [ ("wordpress_url", JsVal.str ""),
    ("wordpress_username", JsVal.str ""),
    ("wordpress_password", JsVal.str ""),
    ("ai_provider", JsVal.str "google"),
    ("openai_api_key", JsVal.str ""),
    ("google_api_key", JsVal.str ""),
    ("anthropic_api_key", JsVal.str ""),
    ("ai_prompt", JsVal.str "Create an engaging, SEO-optimized blog post based on this Reddit post. Make it informative, well-structured with proper headings, and include relevant keywords naturally."),
    ("ezoic_site_id", JsVal.str ""),
    ("adsense_client_id", JsVal.str ""),
    ("auto_publish", JsVal.bool false),
    ("post_frequency", JsVal.num 30 0),
    ("ai_temperature", JsVal.num 7 1),
    ("ai_word_count_min", JsVal.num 800 0),
    ("ai_word_count_max", JsVal.num 1500 0),
    ("publish_delay_minutes", JsVal.num 0 0) ]

/-- The state of the `App` component: its four `useState` cells, the toasts it
has shown and the lines it has written with `console.error`. -/
structure App where
  isRunning : Bool
  posts : List Post
  settings : JsObject
  stats : Stats
  toasts : List Toast
  console : List (String × StoreError)
  deriving Repr

/-- The state `App` starts in. -/
def App.init : App :=
  { isRunning := false, posts := [], settings := initialSettings,
    stats := ⟨0, 0, JsVal.num 0 0, JsVal.num 0 0⟩, toasts := [], console := [] }

/-- The call `toast(t)`. -/
def App.toast (app : App) (t : Toast) : App := { app with toasts := app.toasts ++ [t] }

/-- The clock of the browser: the time of a call, in milliseconds since the
epoch, and the local time zone, given as the offset of local time from UTC, in
milliseconds, at each instant (it varies with daylight saving). -/
structure Clock where
  time : Nat
  offset : Nat → Int

/-- A clock in UTC showing time `t`. -/
def utc (t : Nat) : Clock := { time := t, offset := fun _ => 0 }

/-- The local time of the instant `t`, in milliseconds. -/
def Clock.localTime (c : Clock) (t : Nat) : Int := (t : Int) + c.offset t

/-- The result of `new Date(t).toDateString()`: weekday, month, day and year of the
instant `t` in local time.  Two such strings are equal exactly when the two
local days are, so the string is given by the number of its local day, counted
from 1 January 1970. -/
def toDateString (c : Clock) (t : Nat) : Int := c.localTime t / 86400000

/-- The handler `fetchSettings`.  `sel` and `ins` are the transport outcomes of
the select and of the insert, `gen` the columns the database fills in. -/
def fetchSettings (sel ins : Option StoreError) (gen : JsObject) (user : Option String)
    (app : App) (db : Store) : App × Store :=
  match user with
  | none => (app, db)
  | some uid =>
    let r := db.selectSettings sel uid
    match r.data with
    | some data => ({ app with settings := data }, db)
    | none =>
      match r.error with
      | some error =>
        if error.code = "PGRST116" then
          let (r2, db2) := db.insertSettings ins gen (("user_id", JsVal.str uid) :: initialSettings)
          let app1 := match r2.data with
            | some newSettings => { app with settings := newSettings }
            | none => app
          let app2 := match r2.error with
            | some insertError =>
              { app1 with console := app1.console ++ [("Error creating settings:", insertError)] }
            | none => app1
          (app2, db2)
        else (app, db)
      | none => (app, db)

/-- The handler `fetchPosts`; `now` is the clock at the call and `sel` the
transport outcome of the select. -/
def fetchPosts (now : Clock) (sel : Option StoreError) (user : Option String)
    (app : App) (db : Store) : App :=
  match user with
  | none => app
  | some uid =>
    let (r, count) := db.selectPosts sel uid
    let app1 := match r.data with
      | some data =>
        let publishedTodayCount := (data.filter (fun p =>
          p.status == "published"
            && toDateString now p.created_at == toDateString now now.time)).length
        { app with posts := data,
                   stats := { app.stats with totalPosts := count.getD 0,
                                             publishedToday := publishedTodayCount } }
      | none => app
    match r.error with
    | some error => { app1 with console := app1.console ++ [("Error fetching posts:", error)] }
    | none => app1

/-- The handler `handleStartAutomation`. -/
def handleStartAutomation (app : App) : App :=
  { app with isRunning := !app.isRunning }.toast
    { title := if app.isRunning then "Automation Stopped" else "Automation Started",
      description := some (if app.isRunning
        then "The system will no longer fetch new posts automatically."
        else "The system is now live! It will check your RSS feeds every "
              ++ (app.settings.get "post_frequency").toStr ++ " minutes."),
      variant := none }

/-- The handler `handlePublishPost`.  `w` is the value of
`Math.floor(Math.random() * 1000)`, `upd` the transport outcome of the update;
`now`, `sel` and `user` are those of the `fetchPosts` call it makes. -/
def handlePublishPost (w : Fin 1000) (upd : Option StoreError) (now : Clock)
    (sel : Option StoreError) (user : Option String) (postId : Nat)
    (app : App) (db : Store) : App × Store :=
  let app0 := app.toast
    { title := "Publishing...", description := some "Sending post to WordPress.", variant := none }
  let (r, db1) := db.updatePost upd "published" w.val postId
  let app1 := match r.data with
    | some _ => (fetchPosts now sel user app0 db1).toast
        { title := "Post Published!",
          description := some "Post has been successfully published to WordPress.",
          variant := none }
    | none => app0
  let app2 := match r.error with
    | some error => app1.toast
        { title := "Error publishing post", description := some error.message,
          variant := some "destructive" }
    | none => app1
  (app2, db1)

/-- The handler `handleDeletePost`. -/
def handleDeletePost (del : Option StoreError) (now : Clock) (sel : Option StoreError)
    (user : Option String) (postId : Nat) (app : App) (db : Store) : App × Store :=
  let (error, db1) := db.deletePost del postId
  match error with
  | none => ((fetchPosts now sel user app db1).toast
      { title := "Post Deleted", description := some "Post has been removed from the dashboard.",
        variant := none }, db1)
  | some e => (app.toast
      { title := "Error deleting post", description := some e.message,
        variant := some "destructive" }, db1)

/-- The handler `handleRefreshStats`; `revenue` and `ctr` are the two strings
`(Math.random() * 500 + 100).toFixed(2)` and `(Math.random() * 3 + 1).toFixed(2)`. -/
def handleRefreshStats (revenue ctr : String) (app : App) : App :=
  { app with stats := { app.stats with totalRevenue := JsVal.str revenue,
                                       avgCtr := JsVal.str ctr } }.toast
    { title := "Stats Refreshed", description := some "Monetization data has been updated.",
      variant := none }

/-! ## `PostsTab.jsx` -/

/-- The buttons a post card shows, each with the argument its `onClick` passes. -/
inductive Control where
  | preview : Control
  | logs : Control
  | publish (postId : Nat) : Control
  | delete (postId : Nat) : Control
  deriving DecidableEq, Repr

/-- The component `PostCard`, as the row of buttons it renders for `post`:
Preview, Logs, Publish under `post.status !== 'published'`, and Delete. -/
def PostCard (post : Post) : List Control :=
  [Control.preview, Control.logs]
    ++ (if post.status ≠ "published" then [Control.publish post.id] else [])
    ++ [Control.delete post.id]

/-- The component `PostsTab`: one card per post. -/
def PostsTab (posts : List Post) : List Control := posts.flatMap PostCard

/-- The transport outcomes and random draw a click may consume. -/
structure Env where
  w : Fin 1000
  write : Option StoreError
  now : Clock
  sel : Option StoreError
  user : Option String

/-- Clicking a button of the posts tab: `onPublish` is `handlePublishPost` and
`onDelete` is `handleDeletePost`; Preview and Logs only open a dialog. -/
def click (env : Env) (c : Control) (app : App) (db : Store) : App × Store :=
  match c with
  | Control.preview => (app, db)
  | Control.logs => (app, db)
  | Control.publish postId =>
    handlePublishPost env.w env.write env.now env.sel env.user postId app db
  | Control.delete postId => handleDeletePost env.write env.now env.sel env.user postId app db

/-! ## `SettingsTab.jsx` -/

/-- The `newFeed` form state of `RssFeedManager`. -/
structure NewFeed where
  name : String
  url : String
  category : String
  deriving DecidableEq, Repr

/-- The state of the `RssFeedManager` component and the toasts it has shown. -/
structure RssFeedManager where
  feeds : List Feed
  newFeed : NewFeed
  editingFeed : Option Feed
  isGenerating : Option Nat
  toasts : List Toast
  deriving DecidableEq, Repr

/-- The call `toast(t)` inside `RssFeedManager`. -/
def RssFeedManager.toast (m : RssFeedManager) (t : Toast) : RssFeedManager :=
  { m with toasts := m.toasts ++ [t] }

/-- The handler `handleAddFeed`.  `ins` is the transport outcome of the insert,
`genId` and `genCreatedAt` the columns the database fills in, `uid` is `user.id`. -/
def handleAddFeed (ins : Option StoreError) (genId genCreatedAt : Nat) (uid : String)
    (m : RssFeedManager) (db : Store) : RssFeedManager × Store :=
  if m.newFeed.name = "" ∨ m.newFeed.url = "" then
    (m.toast { title := "Missing fields", description := some "Please provide a name and URL.",
               variant := some "destructive" }, db)
  else
    let (r, db1) := db.insertFeed ins genId genCreatedAt
      m.newFeed.name m.newFeed.url m.newFeed.category uid
    match r.error, r.data with
    | some error, _ =>
      (m.toast { title := "Error adding feed", description := some error.message,
                 variant := some "destructive" }, db1)
    | none, some data =>
      ({ m with feeds := m.feeds ++ [data], newFeed := ⟨"", "", ""⟩ }.toast
        { title := "Feed added successfully!", description := none, variant := none }, db1)
    | none, none => (m, db1) -- no store response has neither data nor error

/-- The handler `handleDeleteFeed`; `delPosts` and `delFeed` are the transport
outcomes of its two deletions. -/
def handleDeleteFeed (delPosts delFeed : Option StoreError) (id : Nat)
    (m : RssFeedManager) (db : Store) : RssFeedManager × Store :=
  let (_, db1) := db.deletePostsOfFeed delPosts id
  let (error, db2) := db1.deleteFeed delFeed id
  match error with
  | some e =>
    (m.toast { title := "Error deleting feed", description := some e.message,
               variant := some "destructive" }, db2)
  | none =>
    ({ m with feeds := m.feeds.filter (fun f => f.id != id) }.toast
      { title := "Feed deleted successfully!", description := none, variant := none }, db2)

/-- The `target` of a change event, as `handleInputChange` destructures it. -/
structure InputEvent where
  id : String
  value : String
  type : String
  checked : Bool
  deriving DecidableEq, Repr

/-- The handler `handleInputChange`, as the updater it passes to `setSettings`. -/
def handleInputChange (e : InputEvent) (prev : JsObject) : JsObject :=
  prev.set e.id (if e.type = "checkbox" then JsVal.bool e.checked else JsVal.str e.value)

/-- The change event of the Feed Refresh Interval field
(`<Input id="post_frequency" type="number" min="15" ...>`) when the user
enters the number `n`.  The `min` attribute marks smaller values as invalid
for form validation; it does not alter `e.target.value`. -/
def postFrequencyEntered (n : Int) : InputEvent :=
  { id := "post_frequency", value := toString n, type := "number", checked := false }

/-- The object `updateData` of `handleSaveSettings`: the settings without
`id`, `created_at`, `updated_at` and `user_id`. -/
def updateData (settings : JsObject) : JsObject :=
  settings.rest ["id", "created_at", "updated_at", "user_id"]

/-- The handler `handleSaveSettings`; `upd` is the transport outcome of the update. -/
def handleSaveSettings (upd : Option StoreError) (uid : String) (app : App) (db : Store) :
    App × Store :=
  let (error, db1) := db.updateSettings upd (updateData app.settings) uid
  match error with
  | some e => (app.toast { title := "Error Saving Settings", description := some e.message,
                           variant := some "destructive" }, db1)
  | none => (app.toast { title := "Settings Saved!",
                         description := some "Your configuration has been updated.",
                         variant := none }, db1)

/-- The first half of `handleGenerateNow`, up to the `await`:
`setIsGenerating(feedId)`, the toast, and the `process-feed` invocation sent. -/
def handleGenerateNow_start (feedId : Nat) (m : RssFeedManager) : RssFeedManager :=
  { m with isGenerating := some feedId }.toast
    { title := "Processing Feed...",
      description := some "Checking for new content and starting AI generation.",
      variant := none }

/-- The second half of `handleGenerateNow`, run when the invocation resolves
to `r` (whose data is `data.message`): the toast, then `setIsGenerating(null)`. -/
def handleGenerateNow_finish (r : Resp String) (m : RssFeedManager) : RssFeedManager :=
  let m1 := match r.error with
    | some error => m.toast { title := "Error Processing Feed", description := some error.message,
                              variant := some "destructive" }
    | none => m.toast { title := "Feed Processed!", description := r.data, variant := none }
  { m1 with isGenerating := none }

/-- The `disabled` attribute of the run-now button of feed `feedId`:
`isGenerating === feed.id`. -/
def runNowDisabled (m : RssFeedManager) (feedId : Nat) : Bool := m.isGenerating == some feedId

/-- Whether the run-now button of feed `feedId` is on screen: the feed is in
`feeds` and its row is not in edit mode (`editingFeed?.id === feed.id`). -/
def runNowShown (m : RssFeedManager) (feedId : Nat) : Bool :=
  m.feeds.any (fun f => f.id == feedId) && m.editingFeed.map (fun f => f.id) != some feedId

/-- The component together with the `process-feed` invocations that have been
sent and have not resolved yet, by feed id, oldest first. -/
structure RunNow where
  m : RssFeedManager
  inFlight : List Nat
  deriving DecidableEq, Repr

/-- What can happen around the run-now buttons: the user presses the button
of a feed, or a pending invocation for a feed resolves. -/
inductive RunNowEvent where
  | press (feedId : Nat) : RunNowEvent
  | resolve (feedId : Nat) (r : Resp String) : RunNowEvent

/-- One event.  A press reaches `handleGenerateNow` only when the button is on
screen and not disabled; an invocation resolves only if it is pending. -/
def RunNow.step (s : RunNow) : RunNowEvent → RunNow
  | RunNowEvent.press feedId =>
    if runNowShown s.m feedId && !runNowDisabled s.m feedId then
      { m := handleGenerateNow_start feedId s.m, inFlight := s.inFlight ++ [feedId] }
    else s
  | RunNowEvent.resolve feedId r =>
    if feedId ∈ s.inFlight then
      { m := handleGenerateNow_finish r s.m, inFlight := s.inFlight.erase feedId }
    else s

/-- A sequence of events, from the left. -/
def RunNow.run (s : RunNow) (evs : List RunNowEvent) : RunNow := evs.foldl RunNow.step s

/-- The change event of the Publish Delay field
(`<Input id="publish_delay_minutes" type="number" min="0" ...>`) when the user
enters the number `n`.  As for the refresh interval, `min` does not alter
`e.target.value`. -/
def publishDelayEntered (n : Int) : InputEvent :=
  { id := "publish_delay_minutes", value := toString n, type := "number", checked := false }

/-- The credential input `renderApiKeyInput` returns: the label text and the
`id`, `placeholder` and `value` attributes of the `<Input type="password">`. -/
structure ApiKeyInput where
  label : String
  id : String
  placeholder : String
  value : JsVal
  deriving DecidableEq, Repr

/-- The function `renderApiKeyInput`: the `switch` over `settings.ai_provider`,
with `[]` for `null`. -/
def renderApiKeyInput (settings : JsObject) : List ApiKeyInput :=
  if settings.get "ai_provider" = JsVal.str "openai" then
    [⟨"OpenAI API Key", "openai_api_key", "sk-...",
      (settings.get "openai_api_key").or (JsVal.str "")⟩]
  else if settings.get "ai_provider" = JsVal.str "google" then
    [⟨"Google AI API Key", "google_api_key", "AIza...",
      (settings.get "google_api_key").or (JsVal.str "")⟩]
  else if settings.get "ai_provider" = JsVal.str "anthropic" then
    [⟨"Anthropic API Key", "anthropic_api_key", "sk-ant-...",
      (settings.get "anthropic_api_key").or (JsVal.str "")⟩]
  else []

/-- What an expression in braces inside JSX evaluates to, as far as the post
card needs it. -/
inductive ReactNode where
  | null : ReactNode
  | number (n : Nat) : ReactNode
  | span (text : String) : ReactNode
  deriving DecidableEq, Repr

/-- The expression `post.wordpress_id && <span>WP ID: {post.wordpress_id}</span>`
of `PostCard`: `a && b` is `a` when `a` is falsy (`null`, or the number 0) and
`b` otherwise. -/
def wordpressIdNode (post : Post) : ReactNode :=
  match post.wordpress_id with
  | none => ReactNode.null
  | some n => if n != 0 then ReactNode.span ("WP ID: " ++ toString n) else ReactNode.number n

/-- The text React puts on screen for a node: nothing for `null`, the digits
of a number, the content of a span. -/
def ReactNode.text : ReactNode → Option String
  | ReactNode.null => none
  | ReactNode.number n => some (toString n)
  | ReactNode.span t => some t

/-! ## `MonetizationTab.jsx` -/

/-- The object literal `handleSaveMonetization` passes to `update`. -/
def monetizationData (settings : JsObject) : JsObject :=
  [ ("ezoic_site_id", settings.get "ezoic_site_id"),
    ("adsense_client_id", settings.get "adsense_client_id") ]

/-- The handler `handleSaveMonetization`; `upd` is the transport outcome of the update. -/
def handleSaveMonetization (upd : Option StoreError) (uid : String) (app : App) (db : Store) :
    App × Store :=
  let (error, db1) := db.updateSettings upd (monetizationData app.settings) uid
  match error with
  | some e => (app.toast { title := "Error Saving Settings", description := some e.message,
                           variant := some "destructive" }, db1)
  | none => (app.toast { title := "Monetization Settings Saved",
                         description := some "Your ad network settings have been updated.",
                         variant := none }, db1)

/-! ## The dashboard as a whole -/

/-- The handlers of `App`, `SettingsTab` and `MonetizationTab` that a user (or
an effect) can run, each with the outcomes it consumes. -/
inductive DashAction where
  | startAutomation : DashAction
  | refreshStats (revenue ctr : String) : DashAction
  | fetchSettings (sel ins : Option StoreError) (gen : JsObject) (user : Option String) :
      DashAction
  | fetchPosts (now : Clock) (sel : Option StoreError) (user : Option String) : DashAction
  | publishPost (w : Fin 1000) (upd : Option StoreError) (now : Clock) (sel : Option StoreError)
      (user : Option String) (postId : Nat) : DashAction
  | deletePost (del : Option StoreError) (now : Clock) (sel : Option StoreError)
      (user : Option String) (postId : Nat) : DashAction
  | saveSettings (upd : Option StoreError) (uid : String) : DashAction
  | saveMonetization (upd : Option StoreError) (uid : String) : DashAction

/-- Running one handler. -/
def DashAction.perform (a : DashAction) (s : App × Store) : App × Store :=
  match a with
  | DashAction.startAutomation => (handleStartAutomation s.1, s.2)
  | DashAction.refreshStats revenue ctr => (handleRefreshStats revenue ctr s.1, s.2)
  | DashAction.fetchSettings sel ins gen user => Horizon.fetchSettings sel ins gen user s.1 s.2
  | DashAction.fetchPosts now sel user => (Horizon.fetchPosts now sel user s.1 s.2, s.2)
  | DashAction.publishPost w upd now sel user postId =>
    handlePublishPost w upd now sel user postId s.1 s.2
  | DashAction.deletePost del now sel user postId =>
    handleDeletePost del now sel user postId s.1 s.2
  | DashAction.saveSettings upd uid => handleSaveSettings upd uid s.1 s.2
  | DashAction.saveMonetization upd uid => handleSaveMonetization upd uid s.1 s.2

/-- Running handlers one after the other. -/
def DashAction.run (acts : List DashAction) (s : App × Store) : App × Store :=
  acts.foldl (fun st a => a.perform st) s

/-- Whether the action is a manual publish or delete of the post `postId`. -/
def DashAction.targets (a : DashAction) (postId : Nat) : Bool :=
  match a with
  | DashAction.publishPost _ _ _ _ _ i => i == postId
  | DashAction.deletePost _ _ _ _ i => i == postId
  | _ => false

/-- The credential fields of a settings record. -/
def credentialFields : List String :=
  ["openai_api_key", "google_api_key", "anthropic_api_key", "wordpress_password"]

/-- A publishing capability seen from the dashboard: the outcomes of the
successive store calls that publish, the first call taking the first outcome.
One press of Publish runs `handlePublishPost` once, on the next outcome. -/
def pressPublish (w : Fin 1000) (now : Clock) (sel : Option StoreError) (user : Option String)
    (postId : Nat) (s : (App × Store) × List (Option StoreError)) :
    (App × Store) × List (Option StoreError) :=
  match s.2 with
  | [] => s
  | outcome :: later => (handlePublishPost w outcome now sel user postId s.1.1 s.1.2, later)

/-- Two settings records that differ only in credential fields: without those
fields they are the same record. -/
def sameExceptCredentials (s1 s2 : JsObject) : Prop :=
  s1.rest credentialFields = s2.rest credentialFields

/-- Two states of `App` that agree on everything but the credential fields of
the settings. -/
def App.sameExceptCredentials (a1 a2 : App) : Prop :=
  a1.isRunning = a2.isRunning ∧ a1.posts = a2.posts ∧ a1.stats = a2.stats
    ∧ a1.toasts = a2.toasts ∧ a1.console = a2.console
    ∧ Horizon.sameExceptCredentials a1.settings a2.settings

/-- Two stores that agree on everything but the credential fields of the rows
of `user_settings`. -/
def Store.sameExceptCredentials (d1 d2 : Store) : Prop :=
  d1.posts = d2.posts ∧ d1.rss_feeds = d2.rss_feeds
    ∧ List.Forall₂ Horizon.sameExceptCredentials d1.user_settings d2.user_settings

/-! ## The feed pipeline behind `process-feed` -/

/-- Modelled from the spec: an entry as the Feed Fetcher returns it (§4.1),
"each with a stable external identifier, title, body/summary".  The function
`process-feed` that `handleGenerateNow` invokes is not among the sources. -/
structure Entry where
  id : String
  title : String
  summary : String
  deriving DecidableEq, Repr

/-- Modelled from the spec: a Post as the pipeline creates it (§3), with its
source feed, the identifier of the entry it was made from, and its status. -/
structure PipelinePost where
  feedId : Nat
  entryId : String
  title : String
  status : String
  deriving DecidableEq, Repr

/-- Modelled from the spec: the state the runs of the pipeline share (§5, "The
Dedup Ledger and Post table are the only mutable shared state touched by
concurrent runs"), together with the runs in progress: for each, its feed and
the new entries it has still to process. -/
structure Pipeline where
  ledger : List (Nat × String)
  posts : List PipelinePost
  runs : List (Nat × List Entry)
  deriving DecidableEq, Repr

/-- Modelled from the spec: `IsNew(feedId, entryId)` of the Dedup Ledger (§4.2),
entries being "compared solely by external identifier". -/
def Pipeline.isNew (s : Pipeline) (feedId : Nat) (entryId : String) : Bool :=
  !s.ledger.contains (feedId, entryId)

/-- Modelled from the spec: `MarkSeen(feedId, entryId)` "executed
transactionally with Post creation" (§4.2, §3: "ledger entry and post creation
are one atomic unit").  The ledger marks a pair once, so for a pair it already
holds the unit does nothing; otherwise the pair is recorded and the Post is
created, in `draft` when generation succeeded and in `error` when it failed
(§4.3). -/
def Pipeline.createPost (s : Pipeline) (feedId : Nat) (e : Entry) (generated : Bool) :
    Pipeline :=
  if s.isNew feedId e.id then
    { s with ledger := s.ledger ++ [(feedId, e.id)],
             posts := s.posts ++
               [⟨feedId, e.id, e.title, if generated then "draft" else "error"⟩] }
  else s

/-- Modelled from the spec: what happens in the pipeline, one atomic step at a
time.  `fetch` starts a run for a feed (§4.6, "fetch, filter via ledger");
`process` lets the run at position `run` handle its next entry, `generated`
telling whether the AI capability returned a payload. -/
inductive PipelineEvent where
  | fetch (feedId : Nat) (entries : List Entry) : PipelineEvent
  | process (run : Nat) (generated : Bool) : PipelineEvent
  deriving DecidableEq, Repr

/-- Modelled from the spec: one step of the pipeline (§4.6, §5).  Runs of the
same feed may be in progress together, each with the entries that were new
when it fetched; they interleave entry by entry. -/
def Pipeline.step (s : Pipeline) : PipelineEvent → Pipeline
  | PipelineEvent.fetch feedId entries =>
    { s with runs := s.runs ++ [(feedId, entries.filter (fun e => s.isNew feedId e.id))] }
  | PipelineEvent.process run generated =>
    match s.runs.get? run with
    | some (feedId, e :: later) =>
      { s.createPost feedId e generated with runs := s.runs.set run (feedId, later) }
    | _ => s

/-- Modelled from the spec: the pipeline after a sequence of steps, starting
with an empty ledger and no posts. -/
def Pipeline.run (evs : List PipelineEvent) : Pipeline := evs.foldl Pipeline.step ⟨[], [], []⟩

/-- The posts made from entry `entryId` of feed `feedId`. -/
def Pipeline.postsOf (s : Pipeline) (feedId : Nat) (entryId : String) : List PipelinePost :=
  s.posts.filter (fun p => p.feedId == feedId && p.entryId == entryId)

/-- The ledger invariant: the posts, in order, are those of the pairs of the
ledger, and no pair is recorded twice. -/
def Pipeline.wellFormed (s : Pipeline) : Prop :=
  s.posts.map (fun p => (p.feedId, p.entryId)) = s.ledger ∧ s.ledger.Nodup

/-- The instant `t` falls on the calendar day of the call: one local day, the
milliseconds from `d * 86400000` up to `(d + 1) * 86400000` of local time,
holds both the local time of `t` and the local time of the call. -/
def fallsOnCurrentDay (c : Clock) (t : Nat) : Prop :=
  ∃ d : Int, d * 86400000 ≤ c.localTime t ∧ c.localTime t < (d + 1) * 86400000
    ∧ d * 86400000 ≤ c.localTime c.time ∧ c.localTime c.time < (d + 1) * 86400000

/-- A clock five hours behind UTC (Eastern Standard Time) showing time `t`. -/
def easternStandard (t : Nat) : Clock := { time := t, offset := fun _ => -18000000 }

/-! ## Concrete states -/

/-- A manager showing two feeds, nothing in progress. -/
def twoFeeds : RunNow :=
  { m := { feeds := [⟨1, "u", "A", "https://a/.rss", "", 0⟩, ⟨2, "u", "B", "https://b/.rss", "", 1⟩],
           newFeed := ⟨"", "", ""⟩, editingFeed := none, isGenerating := none, toasts := [] },
    inFlight := [] }

/-- A post in `draft`, five minutes old, with its "generated" log entry. -/
def draftPost : Post :=
  { id := 7, user_id := "u", rss_feed_id := 1, title := "X - AI", summary := "...",
    content := "<p>...</p>", status := "draft", wordpress_id := none,
    logs := [⟨0, "INFO", "generated"⟩], created_at := 300000 }

/-- A post whose generation failed. -/
def errorPost : Post :=
  { draftPost with id := 8, status := "error", logs := [⟨0, "ERROR", "generation failed"⟩] }

/-- A post that has been published. -/
def publishedPost : Post :=
  { draftPost with id := 9, status := "published", wordpress_id := some 42 }

/-- A transport outcome: the request did not get through. -/
def networkError : StoreError := ⟨"", "Failed to fetch"⟩

/-- An environment in which every call gets through. -/
def quietEnv : Env := { w := 123, write := none, now := utc 600000, sel := none, user := some "u" }

/-- The rows of `user_settings` that belong to user `uid`. -/
def settingsRowsOf (uid : String) (db : Store) : List JsObject :=
  db.user_settings.filter (fun r => r.get "user_id" == JsVal.str uid)

/-- The status and external id of the rows of `posts` with id `postId`. -/
def statusOf (db : Store) (postId : Nat) : List (String × Option Nat) :=
  (db.posts.filter (fun q => q.id == postId)).map (fun q => (q.status, q.wordpress_id))

/-! ## Properties of plain objects -/

theorem JsObject.get_set_self (o : JsObject) (k : String) (v : JsVal) :
    (o.set k v).get k = v := by
  induction o with
  | nil => simp [JsObject.set, JsObject.get]
  | cons kv o ih =>
    obtain ⟨k0, v0⟩ := kv
    by_cases h : k0 = k
    · simp [JsObject.set, JsObject.get, h]
    · simp [JsObject.set, JsObject.get, h, ih]

theorem JsObject.get_set_ne (o : JsObject) (k k2 : String) (v : JsVal) (h : k ≠ k2) :
    (o.set k v).get k2 = o.get k2 := by
  induction o with
  | nil => simp [JsObject.set, JsObject.get, h]
  | cons kv o ih =>
    obtain ⟨k0, v0⟩ := kv
    by_cases h0 : k0 = k
    · subst h0
      simp [JsObject.set, JsObject.get, h]
    · by_cases h1 : k0 = k2
      · subst h1
        simp [JsObject.set, JsObject.get, h0]
      · simp [JsObject.set, JsObject.get, h0, h1, ih]

theorem JsObject.get_rest (ks : List String) (o : JsObject) (k : String) (h : k ∉ ks) :
    (o.rest ks).get k = o.get k := by
  induction o with
  | nil => simp [JsObject.rest, JsObject.get]
  | cons kv o ih =>
    obtain ⟨k0, v0⟩ := kv
    simp only [JsObject.rest] at ih
    by_cases h0 : k0 = k
    · subst h0
      simp [JsObject.rest, JsObject.get, List.filter_cons, h]
    · simp only [JsObject.rest, List.filter_cons]
      split
      · simp only [JsObject.get, h0, if_false]
        exact ih
      · simp only [JsObject.get, h0, if_false]
        exact ih

/-! ## Feed refresh interval -/

/-- Whatever number `n` is entered in the Feed Refresh Interval field, and
whatever the settings held before, `handleInputChange` keeps the entered text,
`handleSaveSettings` sends it, and the "Automation Started" toast announces it. -/
theorem post_frequency_kept_as_entered (n : Int) (prev : JsObject) (app : App) :
    (handleInputChange (postFrequencyEntered n) prev).get "post_frequency"
      = JsVal.str (toString n)
    ∧ (updateData (handleInputChange (postFrequencyEntered n) prev)).get "post_frequency"
      = JsVal.str (toString n)
    ∧ ((handleStartAutomation
          { app with isRunning := false,
                     settings := handleInputChange (postFrequencyEntered n) prev }).toasts.getLast?
        = some { title := "Automation Started",
                 description := some ("The system is now live! It will check your RSS feeds every "
                   ++ toString n ++ " minutes."),
                 variant := none }) := by
  have h1 : (handleInputChange (postFrequencyEntered n) prev).get "post_frequency"
      = JsVal.str (toString n) := by
    simp [handleInputChange, postFrequencyEntered, JsObject.get_set_self]
  refine ⟨h1, ?_, ?_⟩
  · rw [updateData, JsObject.get_rest _ _ _ (by decide), h1]
  · simp [handleStartAutomation, App.toast, h1, JsVal.toStr]

/-- C1, evaluated at the entry 5: the settings keep `"5"`, `handleSaveSettings`
writes `"5"` to the user's row, and the toast announces "every 5 minutes";
none of the three is 15. -/
theorem post_frequency_five_not_clamped :
    (handleInputChange (postFrequencyEntered 5) initialSettings).get "post_frequency"
      = JsVal.str "5"
    ∧ (updateData (handleInputChange (postFrequencyEntered 5) initialSettings)).get
        "post_frequency" = JsVal.str "5"
    ∧ (handleSaveSettings none "u"
        { App.init with settings := handleInputChange (postFrequencyEntered 5) initialSettings }
        ⟨[("user_id", JsVal.str "u") :: initialSettings], [], []⟩).2.user_settings.map
        (fun r => r.get "post_frequency") = [JsVal.str "5"]
    ∧ (handleStartAutomation
        { App.init with settings :=
            handleInputChange (postFrequencyEntered 5) initialSettings }).toasts
        = [{ title := "Automation Started",
             description := some "The system is now live! It will check your RSS feeds every 5 minutes.",
             variant := none }] := by
  decide

/-! ## Run-now overlap -/

/-- C2, evaluated on the presses feed 1, feed 2, feed 1: after the second press the
invocation for feed 1 is still pending while its button is enabled again, and
the third press starts a second invocation for feed 1 next to the first. -/
theorem run_now_overlap :
    1 ∈ (twoFeeds.run [RunNowEvent.press 1, RunNowEvent.press 2]).inFlight
    ∧ runNowDisabled (twoFeeds.run [RunNowEvent.press 1, RunNowEvent.press 2]).m 1 = false
    ∧ (twoFeeds.run [RunNowEvent.press 1, RunNowEvent.press 2, RunNowEvent.press 1]).inFlight
        = [1, 2, 1]
    ∧ (twoFeeds.run
        [RunNowEvent.press 1, RunNowEvent.press 2, RunNowEvent.press 1]).inFlight.count 1
        = 2 := by
  decide

/-! ## Manual publish -/

theorem Store.updatePost_cases (upd : Option StoreError) (st : String) (wid postId : Nat)
    (db : Store) :
    ((∃ e, db.updatePost upd st wid postId = (Resp.fail e, db))
      ∧ (upd = none → ∀ p, db.posts.filter (fun p => p.id == postId) ≠ [p]))
    ∨ (upd = none ∧ ∃ p, db.posts.filter (fun p => p.id == postId) = [p]
        ∧ db.updatePost upd st wid postId =
          (Resp.ok { p with status := st, wordpress_id := some wid },
           { db with posts := db.posts.map (fun q =>
              if q.id == postId then { q with status := st, wordpress_id := some wid } else q) })) := by
  cases upd with
  | some e => exact Or.inl ⟨⟨e, rfl⟩, fun h => by cases h⟩
  | none =>
    simp only [Store.updatePost]
    split
    · next p hp => exact Or.inr ⟨trivial, p, hp, rfl⟩
    · next hne => exact Or.inl ⟨⟨PGRST116, rfl⟩, fun _ p hp => hne p hp⟩

theorem handlePublishPost_store (w : Fin 1000) (upd : Option StoreError) (now : Clock)
    (sel : Option StoreError) (user : Option String) (postId : Nat) (app : App) (db : Store) :
    (handlePublishPost w upd now sel user postId app db).2
      = (db.updatePost upd "published" w.val postId).2 := by
  simp [handlePublishPost]

theorem filter_id_map (f : Post → Post) (hf : ∀ q, (f q).id = q.id) (i : Nat) (l : List Post) :
    (l.map f).filter (fun q => q.id == i) = (l.filter (fun q => q.id == i)).map f := by
  induction l with
  | nil => rfl
  | cons a l ih =>
    by_cases h : a.id = i
    · simp [List.filter_cons, hf, h, ih]
    · simp [List.filter_cons, hf, h, ih]


theorem statusOf_publish_ok (w : Fin 1000) (upd : Option StoreError) (now : Clock)
    (sel : Option StoreError) (user : Option String) (postId : Nat) (app : App) (db : Store)
    (hok : (db.updatePost upd "published" w.val postId).1.error = none) :
    statusOf (handlePublishPost w upd now sel user postId app db).2 postId
      = [("published", some w.val)] := by
  rw [handlePublishPost_store]
  rcases Store.updatePost_cases upd "published" w.val postId db with ⟨⟨e, he⟩, _⟩ | ⟨_, p0, hp0, hres⟩
  · rw [he] at hok
    simp [Resp.fail] at hok
  · rw [hres]
    have hid : p0.id = postId := by
      have : p0 ∈ db.posts.filter (fun q => q.id == postId) := by rw [hp0]; simp
      simpa using (List.mem_filter.mp this).2
    simp only [statusOf]
    rw [filter_id_map _ (by intro q; split <;> rfl), hp0]
    simp [hid]

theorem updatePost_ok_of_unique (w : Nat) (st : String) (postId : Nat) (db : Store) (p0 : Post)
    (h : db.posts.filter (fun q => q.id == postId) = [p0]) :
    (db.updatePost none st w postId).1.error = none := by
  rcases Store.updatePost_cases none st w postId db with ⟨_, hne⟩ | ⟨_, p1, _, hres⟩
  · exact absurd h (hne rfl p0)
  · rw [hres]; rfl

theorem unique_of_updatePost_ok (upd : Option StoreError) (w : Nat) (st : String) (postId : Nat)
    (db : Store) (hok : (db.updatePost upd st w postId).1.error = none) :
    upd = none ∧ ∃ p0, db.posts.filter (fun q => q.id == postId) = [p0] := by
  rcases Store.updatePost_cases upd st w postId db with ⟨⟨e, he⟩, _⟩ | ⟨hu, p0, hp0, _⟩
  · rw [he] at hok
    simp [Resp.fail] at hok
  · exact ⟨hu, p0, hp0⟩


theorem rows_publish_ok (w : Fin 1000) (upd : Option StoreError) (now : Clock)
    (sel : Option StoreError) (user : Option String) (app : App) (db : Store) (p : Post)
    (hp : p ∈ db.posts)
    (hok : (db.updatePost upd "published" w.val p.id).1.error = none) :
    (handlePublishPost w upd now sel user p.id app db).2.posts.filter (fun q => q.id == p.id)
      = [{ p with status := "published", wordpress_id := some w.val }] := by
  rw [handlePublishPost_store]
  rcases Store.updatePost_cases upd "published" w.val p.id db with ⟨⟨e, he⟩, _⟩ | ⟨_, p0, hp0, hres⟩
  · rw [he] at hok
    simp [Resp.fail] at hok
  · rw [hres]
    have hmem : p ∈ db.posts.filter (fun q => q.id == p.id) :=
      List.mem_filter.mpr ⟨hp, by simp⟩
    rw [hp0] at hmem
    have hpp : p = p0 := by simpa using hmem
    subst hpp
    show List.filter _ (List.map _ db.posts) = _
    rw [filter_id_map _ (by intro q; split <;> rfl), hp0]
    simp

/-- C3: for a post in `draft` or `generated` whose update the store accepts,
`handlePublishPost` leaves the row with status `published` and the drawn
`wordpress_id` stored, all other columns kept; the status and id stored are the
same whatever the settings (so whatever `publish_delay_minutes`) and whatever
the post's `created_at`. -/
theorem manual_publish_ignores_delay (w : Fin 1000) (upd : Option StoreError) (now : Clock)
    (sel : Option StoreError) (user : Option String) (app : App) (db : Store) (p : Post)
    (hp : p ∈ db.posts) (_hst : p.status = "draft" ∨ p.status = "generated")
    (hok : (db.updatePost upd "published" w.val p.id).1.error = none)
    (settings2 : JsObject) (t : Nat) :
    (handlePublishPost w upd now sel user p.id app db).2.posts.filter (fun q => q.id == p.id)
        = [{ p with status := "published", wordpress_id := some w.val }]
    ∧ statusOf (handlePublishPost w upd now sel user p.id app db).2 p.id
        = [("published", some w.val)]
    ∧ statusOf (handlePublishPost w upd now sel user p.id { app with settings := settings2 }
        { db with posts := db.posts.map (fun q =>
            if q.id == p.id then { q with created_at := t } else q) }).2 p.id
        = [("published", some w.val)] := by
  refine ⟨rows_publish_ok w upd now sel user app db p hp hok,
    statusOf_publish_ok w upd now sel user p.id app db hok, ?_⟩
  obtain ⟨hu, p0, hp0⟩ := unique_of_updatePost_ok upd w.val "published" p.id db hok
  subst hu
  apply statusOf_publish_ok
  refine updatePost_ok_of_unique w.val "published" p.id _
    (if p0.id == p.id then { p0 with created_at := t } else p0) ?_
  show List.filter _ (List.map _ db.posts) = _
  rw [filter_id_map _ (by intro q; split <;> rfl), hp0]
  rfl

/-- Witness of C3: the draft post 7, published with draw 123, then with a
180-minute delay in the settings and another creation time. -/
theorem manual_publish_ignores_delay_witness :
    statusOf (handlePublishPost 123 none (utc 600000) none (some "u") 7
      { App.init with settings := [("publish_delay_minutes", JsVal.num 180 0)] }
      { user_settings := [], rss_feeds := [],
        posts := [draftPost].map (fun q =>
          if q.id == draftPost.id then { q with created_at := 599999 } else q) }).2 7
      = [("published", some 123)] :=
  (manual_publish_ignores_delay 123 none (utc 600000) none (some "u") App.init
    ⟨[], [draftPost], []⟩ draftPost (by decide) (by decide) (by decide)
    [("publish_delay_minutes", JsVal.num 180 0)] 599999).2.2

theorem handleDeletePost_store (del : Option StoreError) (now : Clock) (sel : Option StoreError)
    (user : Option String) (postId : Nat) (app : App) (db : Store) :
    (handleDeletePost del now sel user postId app db).2 = (db.deletePost del postId).2 := by
  cases del <;> simp [handleDeletePost, Store.deletePost]

theorem mem_PostCard (c : Control) (q : Post) (h : c ∈ PostCard q) :
    c = Control.preview ∨ c = Control.logs
      ∨ (q.status ≠ "published" ∧ c = Control.publish q.id) ∨ c = Control.delete q.id := by
  unfold PostCard at h
  by_cases hs : q.status = "published"
  · simp [hs] at h
    rcases h with h | h | h
    · exact Or.inl h
    · exact Or.inr (Or.inl h)
    · exact Or.inr (Or.inr (Or.inr h))
  · simp [hs] at h
    rcases h with h | h | h | h
    · exact Or.inl h
    · exact Or.inr (Or.inl h)
    · exact Or.inr (Or.inr (Or.inl ⟨hs, h⟩))
    · exact Or.inr (Or.inr (Or.inr h))

theorem publish_mem_PostCard (q : Post) (i : Nat) :
    Control.publish i ∈ PostCard q ↔ q.status ≠ "published" ∧ i = q.id := by
  unfold PostCard
  by_cases hs : q.status = "published" <;> simp [hs]

theorem click_keeps_row (env : Env) (c : Control) (app : App) (db : Store) (posts : List Post)
    (p : Post) (hpub : p.status = "published")
    (hcards : ∀ q ∈ posts, q.id = p.id → q = p)
    (hrows : ∀ q ∈ db.posts, q.id = p.id → q = p)
    (hc : c ∈ PostsTab posts) :
    ∀ q ∈ (click env c app db).2.posts, q.id = p.id → q = p := by
  obtain ⟨q0, hq0, hcq⟩ := List.mem_flatMap.mp hc
  rcases mem_PostCard c q0 hcq with h | h | ⟨hs, h⟩ | h
  · subst h; exact hrows
  · subst h; exact hrows
  · subst h
    have hne : q0.id ≠ p.id := fun hid => hs (by rw [hcards q0 hq0 hid]; exact hpub)
    simp only [click]
    rw [handlePublishPost_store]
    rcases Store.updatePost_cases env.write "published" env.w.val q0.id db with
      ⟨⟨e, he⟩, _⟩ | ⟨_, p0, _, hres⟩
    · rw [he]; exact hrows
    · rw [hres]
      intro q hq hid
      obtain ⟨r, hr, hrq⟩ := List.mem_map.mp hq
      by_cases hri : r.id = q0.id
      · simp [hri] at hrq
        subst hrq
        exact absurd hid hne
      · simp [hri] at hrq
        subst hrq
        exact hrows r hr hid
  · subst h
    simp only [click]
    rw [handleDeletePost_store]
    cases hw : env.write with
    | some e => exact hrows
    | none =>
      intro q hq hid
      exact hrows q (List.mem_filter.mp hq).1 hid

/-- C4: the card of a post whose status is `published` shows Preview, Logs and
Delete and no Publish button; `handleDeletePost` alters no row of `posts` and,
when the store accepts it, removes every row with that id; and when the cards
on screen and the rows of the store with that id are this post, no button of
the posts tab, pressed under any outcome, leaves a row with that id that
differs from it. -/
theorem published_post_offers_no_status_change (p : Post) (hpub : p.status = "published") :
    PostCard p = [Control.preview, Control.logs, Control.delete p.id]
    ∧ (∀ postId, Control.publish postId ∉ PostCard p)
    ∧ (∀ del now sel user app db,
        (∀ q ∈ (handleDeletePost del now sel user p.id app db).2.posts, q ∈ db.posts)
        ∧ (del = none →
            ∀ q ∈ (handleDeletePost del now sel user p.id app db).2.posts, q.id ≠ p.id))
    ∧ (∀ env c app db posts, (∀ q ∈ posts, q.id = p.id → q = p) →
        (∀ q ∈ db.posts, q.id = p.id → q = p) → c ∈ PostsTab posts →
        ∀ q ∈ (click env c app db).2.posts, q.id = p.id → q = p) := by
  refine ⟨by simp [PostCard, hpub], ?_, ?_, ?_⟩
  · intro i hi
    exact ((publish_mem_PostCard p i).mp hi).1 hpub
  · intro del now sel user app db
    rw [handleDeletePost_store]
    cases del with
    | some e => exact ⟨fun q hq => hq, fun h => by cases h⟩
    | none =>
      refine ⟨fun q hq => (List.mem_filter.mp hq).1, fun _ q hq => ?_⟩
      simpa using (List.mem_filter.mp hq).2
  · intro env c app db posts hcards hrows hc
    exact click_keeps_row env c app db posts p hpub hcards hrows hc

/-- Witness of C4, at the published post 9. -/
theorem published_post_offers_no_status_change_witness :
    PostCard publishedPost = [Control.preview, Control.logs, Control.delete 9] :=
  (published_post_offers_no_status_change publishedPost (by decide)).1

/-! ## Lifecycle -/

/-- C5 fails for a post in `error`: its card shows the Publish button, although
the post is neither in `draft` nor in `generated`, and pressing it takes the
post from `error` straight to `published`. -/
theorem publish_offered_for_error_post :
    errorPost.status = "error"
    ∧ ¬ (Control.publish errorPost.id ∈ PostCard errorPost →
          errorPost.status = "draft" ∨ errorPost.status = "generated")
    ∧ (click quietEnv (Control.publish errorPost.id) App.init ⟨[], [errorPost], []⟩).2.posts.map
        (fun q => q.status) = ["published"] := by
  decide

/-- C5 as amended: the Publish button of a card is shown exactly when the
post's status is not `published`, and whatever status such a post has
(`error` included) a manual publish the store accepts leaves it `published`. -/
theorem publish_offered_unless_published (w : Fin 1000) (upd : Option StoreError) (now : Clock)
    (sel : Option StoreError) (user : Option String) (app : App) (db : Store) (p : Post)
    (hp : p ∈ db.posts) (hne : p.status ≠ "published")
    (hok : (db.updatePost upd "published" w.val p.id).1.error = none) :
    (∀ q : Post, Control.publish q.id ∈ PostCard q ↔ q.status ≠ "published")
    ∧ Control.publish p.id ∈ PostCard p
    ∧ (handlePublishPost w upd now sel user p.id app db).2.posts.filter (fun q => q.id == p.id)
        = [{ p with status := "published", wordpress_id := some w.val }] := by
  refine ⟨fun q => ?_, ?_, rows_publish_ok w upd now sel user app db p hp hok⟩
  · rw [publish_mem_PostCard]; simp
  · rw [publish_mem_PostCard]; exact ⟨hne, rfl⟩

/-- Witness of the amended C5, at the post in `error`. -/
theorem publish_offered_unless_published_witness :
    Control.publish errorPost.id ∈ PostCard errorPost
    ∧ (handlePublishPost 123 none (utc 600000) none (some "u") errorPost.id App.init
        ⟨[], [errorPost], []⟩).2.posts.filter (fun q => q.id == errorPost.id)
        = [{ errorPost with status := "published", wordpress_id := some 123 }] :=
  (publish_offered_unless_published 123 none (utc 600000) none (some "u") App.init
    ⟨[], [errorPost], []⟩ errorPost (by decide) (by decide) (by decide)).2

/-! ## Failure and audit log of a manual publish -/

/-- C6 fails when the update is refused: the post stays in `draft`, not in
`error`, its log still holds only the "generated" entry, and the failure is
shown as a toast. -/
theorem publish_failure_only_toasts :
    (handlePublishPost 123 (some networkError) (utc 600000) none (some "u") draftPost.id App.init
        ⟨[], [draftPost], []⟩).2.posts = [draftPost]
    ∧ draftPost.status = "draft"
    ∧ draftPost.logs = [⟨0, "INFO", "generated"⟩]
    ∧ (handlePublishPost 123 (some networkError) (utc 600000) none (some "u") draftPost.id App.init
        ⟨[], [draftPost], []⟩).1.toasts
      = [ { title := "Publishing...", description := some "Sending post to WordPress.",
            variant := none },
          { title := "Error publishing post", description := some "Failed to fetch",
            variant := some "destructive" } ] := by
  decide

/-- C6 as amended: when the update returns an error `e`, `handlePublishPost`
leaves the store and the local posts as they were (no status `error`, no log
entry); it shows the "Publishing..." toast and then a destructive
"Error publishing post" toast carrying `e.message`. -/
theorem publish_failure_leaves_post (w : Fin 1000) (upd : Option StoreError) (now : Clock)
    (sel : Option StoreError) (user : Option String) (postId : Nat) (app : App) (db : Store)
    (e : StoreError) (hfail : (db.updatePost upd "published" w.val postId).1.error = some e) :
    (handlePublishPost w upd now sel user postId app db).2 = db
    ∧ (handlePublishPost w upd now sel user postId app db).1.posts = app.posts
    ∧ (handlePublishPost w upd now sel user postId app db).1.toasts
      = app.toasts ++
        [ { title := "Publishing...", description := some "Sending post to WordPress.",
            variant := none },
          { title := "Error publishing post", description := some e.message,
            variant := some "destructive" } ] := by
  rcases Store.updatePost_cases upd "published" w.val postId db with ⟨⟨e2, he⟩, _⟩ | ⟨_, p0, _, hres⟩
  · rw [he] at hfail
    simp only [Resp.fail, Option.some.injEq] at hfail
    subst hfail
    simp [handlePublishPost, he, Resp.fail, App.toast]
  · rw [hres] at hfail
    simp [Resp.ok] at hfail

/-- Witness of the amended C6. -/
theorem publish_failure_leaves_post_witness :
    (handlePublishPost 123 (some networkError) (utc 600000) none (some "u") 7 App.init
        ⟨[], [draftPost], []⟩).2 = ⟨[], [draftPost], []⟩ :=
  (publish_failure_leaves_post 123 (some networkError) (utc 600000) none (some "u") 7 App.init
    ⟨[], [draftPost], []⟩ networkError (by decide)).1

/-- C7 fails on the draft post: after a successful manual publish the post is
`published` and its log is still the single "generated" entry. -/
theorem publish_appends_no_log_entry :
    (handlePublishPost 123 none (utc 600000) none (some "u") draftPost.id App.init
        ⟨[], [draftPost], []⟩).2.posts.map (fun q => (q.status, q.logs))
      = [("published", [⟨0, "INFO", "generated"⟩])] := by
  decide

/-- C7 as amended: `handlePublishPost` never touches an audit log.  The logs
of the rows of `posts` are the same before and after, and a publish the store
accepts changes `status` and `wordpress_id` of the post and nothing else. -/
theorem publish_keeps_logs (w : Fin 1000) (upd : Option StoreError) (now : Clock)
    (sel : Option StoreError) (user : Option String) (app : App) (db : Store) (p : Post) :
    (handlePublishPost w upd now sel user p.id app db).2.posts.map (fun q => q.logs)
        = db.posts.map (fun q => q.logs)
    ∧ (p ∈ db.posts → (db.updatePost upd "published" w.val p.id).1.error = none →
        (handlePublishPost w upd now sel user p.id app db).2.posts.filter (fun q => q.id == p.id)
          = [{ p with status := "published", wordpress_id := some w.val }]) := by
  refine ⟨?_, fun hp hok => rows_publish_ok w upd now sel user app db p hp hok⟩
  rw [handlePublishPost_store]
  rcases Store.updatePost_cases upd "published" w.val p.id db with ⟨⟨e, he⟩, _⟩ | ⟨_, p0, _, hres⟩
  · rw [he]
  · rw [hres]
    simp only [List.map_map]
    apply List.map_congr_left
    intro q _
    simp only [Function.comp]
    split <;> rfl

/-- Witness of the amended C7. -/
theorem publish_keeps_logs_witness :
    (handlePublishPost 123 none (utc 600000) none (some "u") draftPost.id App.init
        ⟨[], [draftPost], []⟩).2.posts.filter (fun q => q.id == draftPost.id)
      = [{ draftPost with status := "published", wordpress_id := some 123 }] :=
  (publish_keeps_logs 123 none (utc 600000) none (some "u") App.init ⟨[], [draftPost], []⟩
    draftPost).2 (by decide) (by decide)

/-! ## Deleting a feed -/

/-- When neither deletion of `handleDeleteFeed(id)` reports an error, no
post with `rss_feed_id = id` and no feed row with that id is left in the store
(the other rows are kept), and the local feed list is the previous list
without the feeds of that id, the others kept in their order. -/
theorem delete_feed_cascades (delPosts delFeed : Option StoreError) (id : Nat)
    (m : RssFeedManager) (db : Store)
    (hposts : (db.deletePostsOfFeed delPosts id).1 = none)
    (hfeed : ((db.deletePostsOfFeed delPosts id).2.deleteFeed delFeed id).1 = none) :
    (∀ q ∈ (handleDeleteFeed delPosts delFeed id m db).2.posts, q.rss_feed_id ≠ id)
    ∧ (∀ f ∈ (handleDeleteFeed delPosts delFeed id m db).2.rss_feeds, f.id ≠ id)
    ∧ (handleDeleteFeed delPosts delFeed id m db).2.posts
        = db.posts.filter (fun q => q.rss_feed_id != id)
    ∧ (handleDeleteFeed delPosts delFeed id m db).2.rss_feeds
        = db.rss_feeds.filter (fun f => f.id != id)
    ∧ (handleDeleteFeed delPosts delFeed id m db).1.feeds = m.feeds.filter (fun f => f.id != id)
    ∧ (∀ f ∈ m.feeds, f.id ≠ id → f ∈ (handleDeleteFeed delPosts delFeed id m db).1.feeds)
    ∧ ((handleDeleteFeed delPosts delFeed id m db).1.feeds).Sublist m.feeds := by
  cases delPosts with
  | some e => simp [Store.deletePostsOfFeed] at hposts
  | none =>
    cases delFeed with
    | some e => simp [Store.deleteFeed] at hfeed
    | none =>
      simp only [handleDeleteFeed, Store.deletePostsOfFeed, Store.deleteFeed,
        RssFeedManager.toast]
      refine ⟨?_, ?_, trivial, trivial, trivial, ?_, List.filter_sublist _⟩
      · intro q hq
        simpa using (List.mem_filter.mp hq).2
      · intro f hf
        simpa using (List.mem_filter.mp hf).2
      · intro f hf hne
        exact List.mem_filter.mpr ⟨hf, by simpa using hne⟩

/-- The accepted case at work: deleting feed 1 of two, with one post of each feed stored. -/
theorem delete_feed_cascades_witness :
    (handleDeleteFeed none none 1 twoFeeds.m
      ⟨[], [draftPost, { draftPost with id := 5, rss_feed_id := 2 }], twoFeeds.m.feeds⟩).2.posts
      = [{ draftPost with id := 5, rss_feed_id := 2 }] := by
  have h := (delete_feed_cascades none none 1 twoFeeds.m
    ⟨[], [draftPost, { draftPost with id := 5, rss_feed_id := 2 }], twoFeeds.m.feeds⟩
    (by decide) (by decide)).2.2.1
  rw [h]
  decide

/-- C8, evaluated with the posts deletion refused and the feed deletion
accepted: `handleDeleteFeed(1)` finishes on its success branch, the row of feed 1
and its entry in the local list are gone and "Feed deleted successfully!" is
shown, while the post of feed 1 is still in the store. -/
theorem delete_feed_success_leaves_posts :
    (handleDeleteFeed (some networkError) none 1 twoFeeds.m
        ⟨[], [draftPost], twoFeeds.m.feeds⟩).2.posts = [draftPost]
    ∧ draftPost.rss_feed_id = 1
    ∧ (handleDeleteFeed (some networkError) none 1 twoFeeds.m
        ⟨[], [draftPost], twoFeeds.m.feeds⟩).2.rss_feeds.map (fun f => f.id) = [2]
    ∧ (handleDeleteFeed (some networkError) none 1 twoFeeds.m
        ⟨[], [draftPost], twoFeeds.m.feeds⟩).1.feeds.map (fun f => f.id) = [2]
    ∧ (handleDeleteFeed (some networkError) none 1 twoFeeds.m
        ⟨[], [draftPost], twoFeeds.m.feeds⟩).1.toasts
      = [{ title := "Feed deleted successfully!", description := none, variant := none }] := by
  decide

/-! ## Settings on first access -/

theorem JsObject.get_append_of_hasKey (o x : JsObject) (k : String) (h : o.hasKey k = true) :
    JsObject.get (o ++ x) k = o.get k := by
  induction o with
  | nil => simp [JsObject.hasKey] at h
  | cons kv o ih =>
    obtain ⟨k0, v0⟩ := kv
    by_cases h0 : k0 = k
    · simp [JsObject.get, h0]
    · have : JsObject.hasKey o k = true := by
        simpa [JsObject.hasKey, h0] using h
      simp only [List.cons_append, JsObject.get, h0, if_false]
      exact ih this

set_option maxRecDepth 100000 in
theorem newRow_defaults (gen : JsObject) (uid : String) :
    (Store.completeRow gen (("user_id", JsVal.str uid) :: initialSettings)).get "user_id"
      = JsVal.str uid
    ∧ ∀ kv ∈ initialSettings,
        (Store.completeRow gen (("user_id", JsVal.str uid) :: initialSettings)).get kv.1 = kv.2 := by
  refine ⟨?_, ?_⟩
  · rw [Store.completeRow, JsObject.get_append_of_hasKey _ _ _ (by simp [JsObject.hasKey])]
    simp [JsObject.get]
  · intro kv hkv
    have hkey : ∀ kv ∈ initialSettings, JsObject.hasKey initialSettings kv.1 = true
        ∧ "user_id" ≠ kv.1 ∧ JsObject.get initialSettings kv.1 = kv.2 := by decide
    obtain ⟨h1, h2, h3⟩ := hkey kv hkv
    rw [Store.completeRow, JsObject.get_append_of_hasKey]
    · rw [JsObject.get, if_neg h2]
      exact h3
    · simp only [JsObject.hasKey, List.any_cons, Bool.or_eq_true]
      exact Or.inr h1

/-- C9 fails when the insert does not get through: the user has no row, the
select answers `PGRST116`, the insert is refused, and afterwards the store
still holds no row for the user; the error is written to the console. -/
theorem fetchSettings_insert_refused :
    settingsRowsOf "u" ⟨[], [], []⟩ = []
    ∧ settingsRowsOf "u" (fetchSettings none (some networkError) [] (some "u") App.init
        ⟨[], [], []⟩).2 = []
    ∧ (fetchSettings none (some networkError) [] (some "u") App.init ⟨[], [], []⟩).1.console
        = [("Error creating settings:", networkError)] := by
  decide

/-- C9 as amended: for a user with at most one row, when the store answers the
select and the insert, after `fetchSettings` there is exactly one row of the
user; an existing row becomes the local settings and the store is unchanged; a
missing row is inserted last, carries the user's id and every default of
`initialSettings`, and becomes the local settings. -/
theorem fetchSettings_one_row (gen : JsObject) (uid : String) (app : App) (db : Store)
    (hle : (settingsRowsOf uid db).length ≤ 1) :
    (settingsRowsOf uid (fetchSettings none none gen (some uid) app db).2).length = 1
    ∧ (∀ row, settingsRowsOf uid db = [row] →
        (fetchSettings none none gen (some uid) app db).2 = db
        ∧ (fetchSettings none none gen (some uid) app db).1.settings = row)
    ∧ (settingsRowsOf uid db = [] →
        (fetchSettings none none gen (some uid) app db).2 =
          { db with user_settings := db.user_settings ++
              [Store.completeRow gen (("user_id", JsVal.str uid) :: initialSettings)] }
        ∧ (fetchSettings none none gen (some uid) app db).1.settings
            = Store.completeRow gen (("user_id", JsVal.str uid) :: initialSettings)
        ∧ (Store.completeRow gen (("user_id", JsVal.str uid) :: initialSettings)).get "user_id"
            = JsVal.str uid
        ∧ ∀ kv ∈ initialSettings,
            (Store.completeRow gen (("user_id", JsVal.str uid) :: initialSettings)).get kv.1
              = kv.2) := by
  have hnew := newRow_defaults gen uid
  match hrows : settingsRowsOf uid db with
  | [] =>
    have hsel : db.selectSettings none uid = Resp.fail PGRST116 := by
      simp only [Store.selectSettings]
      rw [show db.user_settings.filter (fun r => r.get "user_id" == JsVal.str uid) = [] from hrows]
      rfl
    have hout : fetchSettings none none gen (some uid) app db =
        ({ app with settings :=
            Store.completeRow gen (("user_id", JsVal.str uid) :: initialSettings) },
         { db with user_settings := db.user_settings ++
            [Store.completeRow gen (("user_id", JsVal.str uid) :: initialSettings)] }) := by
      simp [fetchSettings, hsel, Resp.fail, PGRST116, Store.insertSettings, Resp.ok]
    rw [hout]
    refine ⟨?_, ?_, fun _ => ⟨rfl, rfl, hnew⟩⟩
    · simp only [settingsRowsOf] at hrows ⊢
      rw [List.filter_append, hrows]
      simp [hnew.1]
    · intro row h
      cases h
  | [row] =>
    have hsel : db.selectSettings none uid = Resp.ok row := by
      simp only [Store.selectSettings]
      rw [show db.user_settings.filter (fun r => r.get "user_id" == JsVal.str uid) = [row]
        from hrows]
      rfl
    have hout : fetchSettings none none gen (some uid) app db
        = ({ app with settings := row }, db) := by
      simp [fetchSettings, hsel, Resp.ok]
    rw [hout]
    refine ⟨by simp [hrows], ?_, fun h => by cases h⟩
    intro row2 h
    simp only [List.cons.injEq, and_true] at h
    subst h
    exact ⟨rfl, rfl⟩
  | _ :: _ :: _ =>
    rw [hrows] at hle
    simp at hle

/-- Witness of the amended C9: a first access on an empty store. -/
theorem fetchSettings_one_row_witness :
    (settingsRowsOf "u" (fetchSettings none none [("id", JsVal.num 1 0)] (some "u") App.init
      ⟨[], [], []⟩).2).length = 1 :=
  (fetchSettings_one_row [("id", JsVal.num 1 0)] "u" App.init ⟨[], [], []⟩ (by decide)).1

/-! ## Adding a feed -/

/-- C10 fails: with a feed of URL `https://a/.rss` in the list, adding a feed with
the same URL, the store accepting the insert, gives a list with that URL twice. -/
theorem add_feed_duplicate_url :
    (handleAddFeed none 3 2 "u"
        { twoFeeds.m with newFeed := ⟨"A again", "https://a/.rss", ""⟩ }
        ⟨[], [], twoFeeds.m.feeds⟩).1.feeds.map (fun f => f.url)
      = ["https://a/.rss", "https://b/.rss", "https://a/.rss"] := by
  decide

/-- C10 as amended: `handleAddFeed` compares no URL.  With a name and a URL
entered, an insert the store accepts appends the new feed, carrying the
entered URL, whether or not a feed of the list has that URL already; an
insert the store refuses leaves the list as it was. -/
theorem add_feed_appends_when_accepted (ins : Option StoreError) (genId genCreatedAt : Nat)
    (uid : String) (m : RssFeedManager) (db : Store)
    (hname : m.newFeed.name ≠ "") (hurl : m.newFeed.url ≠ "") :
    (ins = none →
      (handleAddFeed ins genId genCreatedAt uid m db).1.feeds
        = m.feeds ++ [⟨genId, uid, m.newFeed.name, m.newFeed.url, m.newFeed.category,
            genCreatedAt⟩])
    ∧ (∀ e, ins = some e → (handleAddFeed ins genId genCreatedAt uid m db).1.feeds = m.feeds) := by
  constructor
  · intro h
    subst h
    simp [handleAddFeed, hname, hurl, Store.insertFeed, Resp.ok, RssFeedManager.toast]
  · intro e h
    subst h
    simp [handleAddFeed, hname, hurl, Store.insertFeed, Resp.fail, RssFeedManager.toast]

/-- Witness of the amended C10, at the duplicate URL. -/
theorem add_feed_appends_when_accepted_witness :
    (handleAddFeed none 3 2 "u"
        { twoFeeds.m with newFeed := ⟨"A again", "https://a/.rss", ""⟩ }
        ⟨[], [], twoFeeds.m.feeds⟩).1.feeds
      = twoFeeds.m.feeds ++ [⟨3, "u", "A again", "https://a/.rss", "", 2⟩] :=
  (add_feed_appends_when_accepted none 3 2 "u"
    { twoFeeds.m with newFeed := ⟨"A again", "https://a/.rss", ""⟩ }
    ⟨[], [], twoFeeds.m.feeds⟩ (by decide) (by decide)).1 rfl

/-! ## Publish delay -/

/-- Whatever number `n` is entered in the Publish Delay field, `handleInputChange`
keeps the entered text and `handleSaveSettings` sends it. -/
theorem publish_delay_kept_as_entered (n : Int) (prev : JsObject) :
    (handleInputChange (publishDelayEntered n) prev).get "publish_delay_minutes"
      = JsVal.str (toString n)
    ∧ (updateData (handleInputChange (publishDelayEntered n) prev)).get "publish_delay_minutes"
      = JsVal.str (toString n) := by
  have h1 : (handleInputChange (publishDelayEntered n) prev).get "publish_delay_minutes"
      = JsVal.str (toString n) := by
    simp [handleInputChange, publishDelayEntered, JsObject.get_set_self]
  exact ⟨h1, by rw [updateData, JsObject.get_rest _ _ _ (by decide), h1]⟩

/-- C11, evaluated at the entry -5: the settings keep the text `"-5"`, the
decimal form of the number -5, below 0, and `handleSaveSettings` writes it to
the user's row. -/
theorem publish_delay_negative_kept :
    (handleInputChange (publishDelayEntered (-5)) initialSettings).get "publish_delay_minutes"
      = JsVal.str "-5"
    ∧ "-5" = toString (-5 : Int)
    ∧ (handleSaveSettings none "u"
        { App.init with settings := handleInputChange (publishDelayEntered (-5)) initialSettings }
        ⟨[("user_id", JsVal.str "u") :: initialSettings], [], []⟩).2.user_settings.map
        (fun r => r.get "publish_delay_minutes") = [JsVal.str "-5"] := by
  decide

/-! ## Credential input -/

theorem JsVal.or_str (s : String) : (JsVal.str s).or (JsVal.str "") = JsVal.str s := by
  by_cases h : s = ""
  · subst h; rfl
  · simp [JsVal.or, JsVal.truthy, h]

/-- C16: when `ai_provider` is `google`, `openai` or `anthropic`,
`renderApiKeyInput` returns exactly one input, with id the provider followed by
`_api_key` and value `settings[id] || ''`, which is the field itself whenever
the field holds a string; for every other `ai_provider` it returns nothing. -/
theorem renderApiKeyInput_by_provider (settings : JsObject) :
    (∀ p ∈ ["google", "openai", "anthropic"], settings.get "ai_provider" = JsVal.str p →
      (renderApiKeyInput settings).map (fun i => (i.id, i.value))
          = [(p ++ "_api_key", (settings.get (p ++ "_api_key")).or (JsVal.str ""))]
      ∧ ∀ s, settings.get (p ++ "_api_key") = JsVal.str s →
          (renderApiKeyInput settings).map (fun i => (i.id, i.value))
            = [(p ++ "_api_key", settings.get (p ++ "_api_key"))])
    ∧ ((∀ p ∈ ["google", "openai", "anthropic"], settings.get "ai_provider" ≠ JsVal.str p) →
        renderApiKeyInput settings = []) := by
  constructor
  · intro p hp hprov
    have key : (renderApiKeyInput settings).map (fun i => (i.id, i.value))
        = [(p ++ "_api_key", (settings.get (p ++ "_api_key")).or (JsVal.str ""))] := by
      simp only [List.mem_cons, List.mem_singleton, List.not_mem_nil, or_false] at hp
      rcases hp with h | h | h <;> subst h <;> simp [renderApiKeyInput, hprov]
    refine ⟨key, fun s hs => ?_⟩
    rw [key, hs, JsVal.or_str]
  · intro h
    have h1 := h "openai" (by simp)
    have h2 := h "google" (by simp)
    have h3 := h "anthropic" (by simp)
    simp [renderApiKeyInput, h1, h2, h3]

/-- Witness of C16: the default settings with a Google key entered. -/
theorem renderApiKeyInput_by_provider_witness :
    (renderApiKeyInput (JsObject.set initialSettings "google_api_key" (JsVal.str "AIzaXYZ"))).map
        (fun i => (i.id, i.value))
      = [("google" ++ "_api_key",
          (JsObject.get (JsObject.set initialSettings "google_api_key" (JsVal.str "AIzaXYZ"))
            ("google" ++ "_api_key")).or (JsVal.str ""))] :=
  ((renderApiKeyInput_by_provider
    (JsObject.set initialSettings "google_api_key" (JsVal.str "AIzaXYZ"))).1
      "google" (by decide) (by decide)).1

/-! ## External id on the post card -/

/-- For a stored id other than 0 the card shows `WP ID: n`. -/
theorem wordpressId_shown_of_pos (post : Post) (n : Nat) (h : post.wordpress_id = some n)
    (hn : n ≠ 0) : (wordpressIdNode post).text = some ("WP ID: " ++ toString n) := by
  simp [wordpressIdNode, h, hn, ReactNode.text]

/-- C17, evaluated at the draw 0: `handlePublishPost` stores `wordpress_id` 0 and
the card of the published post shows the bare text `0`, not `WP ID: 0`. -/
theorem wordpress_id_zero_shown_bare :
    (handlePublishPost 0 none (utc 600000) none (some "u") draftPost.id App.init
        ⟨[], [draftPost], []⟩).2.posts
      = [{ draftPost with status := "published", wordpress_id := some 0 }]
    ∧ (handlePublishPost 0 none (utc 600000) none (some "u") draftPost.id App.init
        ⟨[], [draftPost], []⟩).2.posts.map (fun q => (wordpressIdNode q).text) = [some "0"]
    ∧ (handlePublishPost 1 none (utc 600000) none (some "u") draftPost.id App.init
        ⟨[], [draftPost], []⟩).2.posts.map (fun q => (wordpressIdNode q).text)
      = [some "WP ID: 1"] := by
  decide

/-! ## Deleting a feed: the refused deletion -/

/-- C18 fails when both deletions are refused: the feed row and the local list
stay, and so does the post of that feed. -/
theorem delete_feed_both_refused :
    (handleDeleteFeed (some networkError) (some networkError) 1 twoFeeds.m
      ⟨[], [draftPost], twoFeeds.m.feeds⟩).2.posts = [draftPost]
    ∧ draftPost.rss_feed_id = 1
    ∧ (handleDeleteFeed (some networkError) (some networkError) 1 twoFeeds.m
      ⟨[], [draftPost], twoFeeds.m.feeds⟩).1.feeds = twoFeeds.m.feeds := by
  decide

/-- C18 as amended: when the deletion of the feed row reports an error `e`, the
local feed list and the `rss_feeds` table are as before and a destructive toast
carries `e.message`; the posts of the feed are gone exactly when the posts
deletion, issued first and never checked, went through, and are all still
there when it was refused as well. -/
theorem delete_feed_refused_keeps_feed (delPosts : Option StoreError) (e : StoreError)
    (id : Nat) (m : RssFeedManager) (db : Store) :
    (handleDeleteFeed delPosts (some e) id m db).1.feeds = m.feeds
    ∧ (handleDeleteFeed delPosts (some e) id m db).2.rss_feeds = db.rss_feeds
    ∧ (handleDeleteFeed delPosts (some e) id m db).1.toasts = m.toasts ++
        [{ title := "Error deleting feed", description := some e.message,
           variant := some "destructive" }]
    ∧ (delPosts = none →
        (handleDeleteFeed delPosts (some e) id m db).2.posts
          = db.posts.filter (fun q => q.rss_feed_id != id))
    ∧ (∀ e2, delPosts = some e2 →
        (handleDeleteFeed delPosts (some e) id m db).2.posts = db.posts) := by
  cases delPosts with
  | none =>
    simp [handleDeleteFeed, Store.deletePostsOfFeed, Store.deleteFeed, RssFeedManager.toast]
  | some e1 =>
    simp [handleDeleteFeed, Store.deletePostsOfFeed, Store.deleteFeed, RssFeedManager.toast]

/-- Witness of the amended C18: the posts deletion went through, the feed
deletion was refused. -/
theorem delete_feed_refused_keeps_feed_witness :
    (handleDeleteFeed none (some networkError) 1 twoFeeds.m
      ⟨[], [draftPost], twoFeeds.m.feeds⟩).2.posts
      = [draftPost].filter (fun q => q.rss_feed_id != 1) :=
  (delete_feed_refused_keeps_feed none networkError 1 twoFeeds.m
    ⟨[], [draftPost], twoFeeds.m.feeds⟩).2.2.2.1 rfl

/-! ## Adding a feed: validation and reset -/

/-- C19: with an empty name or URL `handleAddFeed` leaves the store, the feed
list and the form as they were, whatever the store would have answered; with
both entered and the insert answered with a row, the feed list is the old one
followed by that row, which carries the entered fields, and the form is empty
again. -/
theorem add_feed_validates_then_appends (ins : Option StoreError) (genId genCreatedAt : Nat)
    (uid : String) (m : RssFeedManager) (db : Store) :
    ((m.newFeed.name = "" ∨ m.newFeed.url = "") →
      (handleAddFeed ins genId genCreatedAt uid m db).2 = db
      ∧ (handleAddFeed ins genId genCreatedAt uid m db).1.feeds = m.feeds
      ∧ (handleAddFeed ins genId genCreatedAt uid m db).1.newFeed = m.newFeed)
    ∧ (m.newFeed.name ≠ "" → m.newFeed.url ≠ "" → ∀ data,
        (db.insertFeed ins genId genCreatedAt m.newFeed.name m.newFeed.url m.newFeed.category
          uid).1.data = some data →
        (handleAddFeed ins genId genCreatedAt uid m db).1.feeds = m.feeds ++ [data]
        ∧ (m.feeds ++ [data]).getLast? = some data
        ∧ (handleAddFeed ins genId genCreatedAt uid m db).1.newFeed = ⟨"", "", ""⟩
        ∧ data = ⟨genId, uid, m.newFeed.name, m.newFeed.url, m.newFeed.category,
            genCreatedAt⟩) := by
  constructor
  · intro h
    simp [handleAddFeed, h, RssFeedManager.toast]
  · intro hname hurl data hdata
    cases ins with
    | some e => simp [Store.insertFeed, Resp.fail] at hdata
    | none =>
      simp only [Store.insertFeed, Resp.ok, Option.some.injEq] at hdata
      subst hdata
      simp [handleAddFeed, hname, hurl, Store.insertFeed, Resp.ok, RssFeedManager.toast]

/-- Witness of C19: a third feed added to the two on screen. -/
theorem add_feed_validates_then_appends_witness :
    (handleAddFeed none 3 2 "u" { twoFeeds.m with newFeed := ⟨"C", "https://c/.rss", "tech"⟩ }
        ⟨[], [], twoFeeds.m.feeds⟩).1.newFeed = ⟨"", "", ""⟩ :=
  ((add_feed_validates_then_appends none 3 2 "u"
    { twoFeeds.m with newFeed := ⟨"C", "https://c/.rss", "tech"⟩ }
    ⟨[], [], twoFeeds.m.feeds⟩).2 (by decide) (by decide)
      ⟨3, "u", "C", "https://c/.rss", "tech", 2⟩ rfl).2.2.1

/-! ## What the save handlers send -/

/-- C20: the object `handleSaveSettings` sends holds exactly the fields of the
settings other than `id`, `created_at`, `updated_at` and `user_id`, with their
values; the update it makes is that object spread over the rows whose
`user_id` is the user's, every other row and table kept; and
`handleSaveMonetization` sends exactly `ezoic_site_id` and
`adsense_client_id`, with the values of the settings, to the same rows. -/
theorem save_handlers_payload (upd : Option StoreError) (uid : String) (app : App)
    (db : Store) :
    (∀ kv, kv ∈ updateData app.settings ↔
        kv ∈ app.settings ∧ kv.1 ∉ ["id", "created_at", "updated_at", "user_id"])
    ∧ (handleSaveSettings upd uid app db).2
        = (db.updateSettings upd (updateData app.settings) uid).2
    ∧ (∀ patch, upd = none → (db.updateSettings upd patch uid).2 =
        { db with user_settings := db.user_settings.map (fun r =>
            if r.get "user_id" == JsVal.str uid then JsObject.spread r patch else r) })
    ∧ (∀ patch e, upd = some e → (db.updateSettings upd patch uid).2 = db)
    ∧ (monetizationData app.settings).map (fun kv => kv.1) = ["ezoic_site_id", "adsense_client_id"]
    ∧ (∀ kv ∈ monetizationData app.settings, kv.2 = app.settings.get kv.1)
    ∧ (handleSaveMonetization upd uid app db).2
        = (db.updateSettings upd (monetizationData app.settings) uid).2 := by
  refine ⟨?_, ?_, ?_, ?_, rfl, ?_, ?_⟩
  · intro kv
    simp [updateData, JsObject.rest, List.mem_filter]
  · cases upd <;> simp [handleSaveSettings, Store.updateSettings]
  · intro patch h
    subst h
    rfl
  · intro patch e h
    subst h
    rfl
  · intro kv hkv
    simp only [monetizationData, List.mem_cons, List.mem_singleton, List.not_mem_nil,
      or_false] at hkv
    rcases hkv with h | h <;> subst h <;> rfl
  · cases upd <;> simp [handleSaveMonetization, Store.updateSettings]

/-- Witness of C20: saving a changed prompt with two users in the store; the
other user's row is the same afterwards. -/
theorem save_handlers_payload_witness :
    (Store.updateSettings none
        (updateData [("id", JsVal.num 1 0), ("user_id", JsVal.str "u"),
          ("ai_prompt", JsVal.str "new")]) "u"
        ⟨[[("user_id", JsVal.str "u"), ("ai_prompt", JsVal.str "old")],
          [("user_id", JsVal.str "v"), ("ai_prompt", JsVal.str "theirs")]], [], []⟩).2.user_settings
      = [[("user_id", JsVal.str "u"), ("ai_prompt", JsVal.str "new")],
         [("user_id", JsVal.str "v"), ("ai_prompt", JsVal.str "theirs")]] := by
  have h := (save_handlers_payload none "u" App.init
    ⟨[[("user_id", JsVal.str "u"), ("ai_prompt", JsVal.str "old")],
      [("user_id", JsVal.str "v"), ("ai_prompt", JsVal.str "theirs")]], [], []⟩).2.2.1
    (updateData [("id", JsVal.num 1 0), ("user_id", JsVal.str "u"),
      ("ai_prompt", JsVal.str "new")]) rfl
  rw [h]
  decide

/-! ## Publishing against a capability that fails first -/

theorem handlePublishPost_refused (w : Fin 1000) (e : StoreError) (now : Clock)
    (sel : Option StoreError) (user : Option String) (postId : Nat) (app : App) (db : Store) :
    (handlePublishPost w (some e) now sel user postId app db).2 = db := by
  rw [handlePublishPost_store]
  rfl

/-- C14 fails on the draft post: against a capability that fails twice and then
succeeds, `handlePublishPost` makes one call only; the second and third outcomes
are left unused, the post is still a draft without external id, its log is still
the single "generated" entry, and an error toast is shown. -/
theorem publish_makes_one_call :
    (pressPublish 123 (utc 600000) none (some "u") draftPost.id
        ((App.init, ⟨[], [draftPost], []⟩), [some networkError, some networkError, none])).2
      = [some networkError, none]
    ∧ (pressPublish 123 (utc 600000) none (some "u") draftPost.id
        ((App.init, ⟨[], [draftPost], []⟩),
          [some networkError, some networkError, none])).1.2.posts.map
        (fun q => (q.status, q.wordpress_id, q.logs))
      = [("draft", none, [⟨0, "INFO", "generated"⟩])]
    ∧ (pressPublish 123 (utc 600000) none (some "u") draftPost.id
        ((App.init, ⟨[], [draftPost], []⟩),
          [some networkError, some networkError, none])).1.1.toasts.map (fun t => t.title)
      = ["Publishing...", "Error publishing post"] := by
  decide

/-- C14 as amended: `handlePublishPost` calls the store once and never retries.
Against a capability that fails twice and then succeeds, one press of Publish
uses up the first outcome and leaves the store as it was; three presses use up
all three, and then the post is `published` with the id drawn at the third
press, every other column, the audit log included, as before. -/
theorem publish_three_presses (w1 w2 w3 : Fin 1000) (e1 e2 : StoreError) (now : Clock)
    (sel : Option StoreError) (user : Option String) (app : App) (db : Store) (p : Post)
    (hp : p ∈ db.posts)
    (hok : (db.updatePost none "published" w3.val p.id).1.error = none) :
    (pressPublish w1 now sel user p.id ((app, db), [some e1, some e2, none])).1.2 = db
    ∧ (pressPublish w1 now sel user p.id ((app, db), [some e1, some e2, none])).2
        = [some e2, none]
    ∧ (pressPublish w3 now sel user p.id (pressPublish w2 now sel user p.id
        (pressPublish w1 now sel user p.id ((app, db), [some e1, some e2, none])))).2 = []
    ∧ (pressPublish w3 now sel user p.id (pressPublish w2 now sel user p.id
        (pressPublish w1 now sel user p.id
          ((app, db), [some e1, some e2, none])))).1.2.posts.filter (fun q => q.id == p.id)
        = [{ p with status := "published", wordpress_id := some w3.val }] := by
  have h1 : ∀ w a, (handlePublishPost w (some e1) now sel user p.id a db).2 = db :=
    fun w a => handlePublishPost_refused w e1 now sel user p.id a db
  have h2 : ∀ w a, (handlePublishPost w (some e2) now sel user p.id a db).2 = db :=
    fun w a => handlePublishPost_refused w e2 now sel user p.id a db
  refine ⟨?_, rfl, rfl, ?_⟩
  · simp only [pressPublish]
    exact h1 w1 app
  · simp only [pressPublish]
    rw [h1, h2]
    exact rows_publish_ok w3 none now sel user _ db p hp hok

/-- Witness of the amended C14, on the draft post. -/
theorem publish_three_presses_witness :
    (pressPublish 3 (utc 600000) none (some "u") draftPost.id
      (pressPublish 2 (utc 600000) none (some "u") draftPost.id
        (pressPublish 1 (utc 600000) none (some "u") draftPost.id
          ((App.init, ⟨[], [draftPost], []⟩),
            [some networkError, some networkError, none])))).1.2.posts.filter
        (fun q => q.id == draftPost.id)
      = [{ draftPost with status := "published", wordpress_id := some 3 }] :=
  (publish_three_presses 1 2 3 networkError networkError (utc 600000) none (some "u") App.init
    ⟨[], [draftPost], []⟩ draftPost (by decide) (by decide)).2.2.2

/-! ## Operations that leave posts alone -/

theorem fetchPosts_posts_mem (now : Clock) (sel : Option StoreError) (user : Option String)
    (app : App) (db : Store) :
    ∀ q ∈ (fetchPosts now sel user app db).posts, q ∈ app.posts ∨ q ∈ db.posts := by
  intro q hq
  cases user with
  | none => exact Or.inl hq
  | some uid =>
    cases sel with
    | some e =>
      simp only [fetchPosts, Store.selectPosts, Resp.fail] at hq
      exact Or.inl hq
    | none =>
      simp only [fetchPosts, Store.selectPosts, Resp.ok] at hq
      exact Or.inr (List.mem_filter.mp (List.mem_mergeSort.mp hq)).1

theorem updatePost_other_rows (upd : Option StoreError) (st : String) (w j i : Nat)
    (db : Store) (hne : j ≠ i) :
    (db.updatePost upd st w j).2.posts.filter (fun q => q.id == i)
      = db.posts.filter (fun q => q.id == i) := by
  rcases Store.updatePost_cases upd st w j db with ⟨⟨e, he⟩, _⟩ | ⟨_, p0, _, hres⟩
  · rw [he]
  · rw [hres]
    show List.filter _ (List.map _ db.posts) = _
    rw [filter_id_map _ (by intro q; split <;> rfl)]
    conv_rhs => rw [← List.map_id (List.filter (fun q => q.id == i) db.posts)]
    apply List.map_congr_left
    intro q hq
    have hqi : q.id = i := by simpa using (List.mem_filter.mp hq).2
    have : ¬ q.id = j := fun h => hne (h.symm.trans hqi)
    simp [this]

theorem deletePost_other_rows (del : Option StoreError) (j i : Nat) (db : Store) (hne : j ≠ i) :
    (db.deletePost del j).2.posts.filter (fun q => q.id == i)
      = db.posts.filter (fun q => q.id == i) := by
  cases del with
  | some e => rfl
  | none =>
    simp only [Store.deletePost, List.filter_filter]
    apply List.filter_congr
    intro q _
    by_cases hqi : q.id = i
    · have : ¬ i = j := fun h => hne h.symm
      simp [hqi, this]
    · simp [hqi]

theorem fetchSettings_posts (sel ins : Option StoreError) (gen : JsObject)
    (user : Option String) (app : App) (db : Store) :
    (fetchSettings sel ins gen user app db).2.posts = db.posts := by
  unfold fetchSettings
  cases user with
  | none => rfl
  | some uid =>
    simp only
    split
    · rfl
    · split
      · split
        · cases ins <;> rfl
        · rfl
      · rfl

theorem updateSettings_posts (upd : Option StoreError) (patch : JsObject) (uid : String)
    (db : Store) : (db.updateSettings upd patch uid).2.posts = db.posts := by
  cases upd <;> rfl

/-- C15: for a post in `draft`, a handler of the dashboard that is not a manual
publish or delete of that post leaves the rows of `posts` with its id as they
were; toggling automation, refreshing the stats, fetching posts and saving
settings leave the whole `posts` table as it was, whatever the settings (so
whatever `auto_publish`), and every post on screen afterwards is one that was
on screen or is a row of the store. -/
theorem draft_post_untouched (p : Post) (_hdraft : p.status = "draft") (app : App)
    (db : Store) :
    (∀ a : DashAction, a.targets p.id = false →
      (a.perform (app, db)).2.posts.filter (fun q => q.id == p.id)
        = db.posts.filter (fun q => q.id == p.id))
    ∧ (∀ a : DashAction,
        (a = DashAction.startAutomation ∨ (∃ revenue ctr, a = DashAction.refreshStats revenue ctr)
          ∨ (∃ now sel user, a = DashAction.fetchPosts now sel user)
          ∨ (∃ upd uid, a = DashAction.saveSettings upd uid)) →
        (a.perform (app, db)).2.posts = db.posts
        ∧ ∀ q ∈ (a.perform (app, db)).1.posts, q ∈ app.posts ∨ q ∈ db.posts) := by
  constructor
  · intro a ha
    cases a with
    | startAutomation => rfl
    | refreshStats revenue ctr => rfl
    | fetchSettings sel ins gen user =>
      simp only [DashAction.perform]
      rw [fetchSettings_posts]
    | fetchPosts now sel user => rfl
    | publishPost w upd now sel user postId =>
      simp only [DashAction.targets, beq_eq_false_iff_ne, ne_eq] at ha
      simp only [DashAction.perform]
      rw [handlePublishPost_store]
      exact updatePost_other_rows upd "published" w.val postId p.id db ha
    | deletePost del now sel user postId =>
      simp only [DashAction.targets, beq_eq_false_iff_ne, ne_eq] at ha
      simp only [DashAction.perform]
      rw [handleDeletePost_store]
      exact deletePost_other_rows del postId p.id db ha
    | saveSettings upd uid =>
      simp only [DashAction.perform]
      cases upd <;> rfl
    | saveMonetization upd uid =>
      simp only [DashAction.perform]
      cases upd <;> rfl
  · intro a ha
    rcases ha with h | ⟨revenue, ctr, h⟩ | ⟨now, sel, user, h⟩ | ⟨upd, uid, h⟩
    · subst h
      exact ⟨rfl, fun q hq => Or.inl hq⟩
    · subst h
      exact ⟨rfl, fun q hq => Or.inl hq⟩
    · subst h
      exact ⟨rfl, fetchPosts_posts_mem now sel user app db⟩
    · subst h
      cases upd with
      | none => exact ⟨rfl, fun q hq => Or.inl hq⟩
      | some e => exact ⟨rfl, fun q hq => Or.inl hq⟩

/-- Witness of C15: saving settings with `auto_publish` off leaves the draft post. -/
theorem draft_post_untouched_witness :
    ((DashAction.saveSettings none "u").perform
      ({ App.init with settings := JsObject.set initialSettings "auto_publish" (JsVal.bool false) },
        ⟨[], [draftPost], []⟩)).2.posts = [draftPost] :=
  ((draft_post_untouched draftPost (by decide)
    { App.init with settings := JsObject.set initialSettings "auto_publish" (JsVal.bool false) }
    ⟨[], [draftPost], []⟩).2 (DashAction.saveSettings none "u")
      (Or.inr (Or.inr (Or.inr ⟨none, "u", rfl⟩)))).1

/-! ## Credentials and messages -/

theorem JsObject.rest_set (ks : List String) (o : JsObject) (k : String) (v : JsVal) :
    (o.set k v).rest ks = if k ∈ ks then o.rest ks else (o.rest ks).set k v := by
  induction o with
  | nil =>
    by_cases hk : k ∈ ks <;> simp [JsObject.set, JsObject.rest, hk]
  | cons kv o ih =>
    obtain ⟨k0, v0⟩ := kv
    simp only [JsObject.rest] at ih
    by_cases h0 : k0 = k
    · subst h0
      by_cases hk : k0 ∈ ks <;> simp [JsObject.set, JsObject.rest, hk]
    · by_cases hk : k ∈ ks
      · simp only [hk, if_true] at ih
        by_cases hk0 : k0 ∈ ks <;>
          simp [JsObject.set, JsObject.rest, h0, hk, hk0, List.filter_cons] <;> simpa using ih
      · simp only [hk, if_false] at ih
        by_cases hk0 : k0 ∈ ks <;>
          simp [JsObject.set, JsObject.rest, h0, hk, hk0, List.filter_cons] <;> simpa using ih

theorem JsObject.rest_spread (ks : List String) (r p : JsObject) :
    (JsObject.spread r p).rest ks = JsObject.spread (r.rest ks) (p.rest ks) := by
  induction p generalizing r with
  | nil => simp [JsObject.spread, JsObject.rest]
  | cons kv p ih =>
    obtain ⟨k, v⟩ := kv
    have hstep : JsObject.spread r ((k, v) :: p) = JsObject.spread (r.set k v) p := rfl
    rw [hstep, ih, JsObject.rest_set]
    by_cases hk : k ∈ ks
    · simp [hk, JsObject.rest, List.filter_cons]
    · have : JsObject.rest ks ((k, v) :: p) = (k, v) :: JsObject.rest ks p := by
        simp [JsObject.rest, List.filter_cons, hk]
      rw [this, if_neg hk]
      rfl

theorem JsObject.rest_rest_comm (a b : List String) (o : JsObject) :
    (o.rest a).rest b = (o.rest b).rest a := by
  simp only [JsObject.rest, List.filter_filter]
  apply List.filter_congr
  intro x _
  exact Bool.and_comm _ _

theorem sameExceptCredentials.get_eq {s1 s2 : JsObject} (h : sameExceptCredentials s1 s2)
    (k : String) (hk : k ∉ credentialFields) : s1.get k = s2.get k := by
  rw [← JsObject.get_rest credentialFields s1 k hk, ← JsObject.get_rest credentialFields s2 k hk]
  exact congrArg (fun o => JsObject.get o k) h

theorem fetchPosts_frame (now : Clock) (sel : Option StoreError) (user : Option String)
    (app : App) (db : Store) :
    fetchPosts now sel user app db
      = { fetchPosts now sel user { app with settings := [] } { db with user_settings := [] }
          with settings := app.settings } := by
  cases user with
  | none => rfl
  | some uid => cases sel <;> rfl

theorem updatePost_frame (upd : Option StoreError) (st : String) (w i : Nat) (db : Store)
    (us : List JsObject) :
    Store.updatePost upd st w i { db with user_settings := us }
      = ((db.updatePost upd st w i).1,
         { (db.updatePost upd st w i).2 with user_settings := us }) := by
  cases upd with
  | some e => rfl
  | none =>
    simp only [Store.updatePost]
    generalize List.filter (fun p => p.id == i) db.posts = l
    rcases l with _ | ⟨p, _ | ⟨p2, l2⟩⟩ <;> rfl

theorem handlePublishPost_frame (w : Fin 1000) (upd : Option StoreError) (now : Clock)
    (sel : Option StoreError) (user : Option String) (postId : Nat) (app : App) (db : Store) :
    handlePublishPost w upd now sel user postId app db
      = ({ (handlePublishPost w upd now sel user postId { app with settings := [] }
              { db with user_settings := [] }).1 with settings := app.settings },
         { (handlePublishPost w upd now sel user postId { app with settings := [] }
              { db with user_settings := [] }).2 with user_settings := db.user_settings }) := by
  simp only [handlePublishPost]
  rw [updatePost_frame upd "published" w.val postId db []]
  rcases h : db.updatePost upd "published" w.val postId with ⟨⟨data, error⟩, db1⟩
  have hus : db1.user_settings = db.user_settings := by
    have := congrArg (fun x => x.2.user_settings) h
    simp only at this
    rw [← this]
    rcases Store.updatePost_cases upd "published" w.val postId db with
      ⟨⟨e, he⟩, _⟩ | ⟨_, p0, _, hres⟩
    · rw [he]
    · rw [hres]
  cases data with
  | none =>
    cases error with
    | none => simp [App.toast, ← hus]
    | some e => simp [App.toast, ← hus]
  | some d =>
    rw [fetchPosts_frame]
    conv_rhs => rw [fetchPosts_frame]
    cases error with
    | none => simp [App.toast, ← hus]
    | some e => simp [App.toast, ← hus]

theorem handleDeletePost_frame (del : Option StoreError) (now : Clock) (sel : Option StoreError)
    (user : Option String) (postId : Nat) (app : App) (db : Store) :
    handleDeletePost del now sel user postId app db
      = ({ (handleDeletePost del now sel user postId { app with settings := [] }
              { db with user_settings := [] }).1 with settings := app.settings },
         { (handleDeletePost del now sel user postId { app with settings := [] }
              { db with user_settings := [] }).2 with user_settings := db.user_settings }) := by
  cases del with
  | some e => rfl
  | none =>
    simp only [handleDeletePost, Store.deletePost]
    rw [fetchPosts_frame]
    rfl

theorem forall₂_sameExceptCredentials_filter (uid : String) {l1 l2 : List JsObject}
    (h : List.Forall₂ sameExceptCredentials l1 l2) :
    List.Forall₂ sameExceptCredentials
      (l1.filter (fun r => r.get "user_id" == JsVal.str uid))
      (l2.filter (fun r => r.get "user_id" == JsVal.str uid)) := by
  induction h with
  | nil => exact List.Forall₂.nil
  | @cons a b l1 l2 hab _ ih =>
    have hk : a.get "user_id" = b.get "user_id" := hab.get_eq "user_id" (by decide)
    by_cases hu : b.get "user_id" = JsVal.str uid
    · simp only [List.filter_cons, hk, hu, beq_self_eq_true, if_true]
      exact List.Forall₂.cons hab ih
    · have : (b.get "user_id" == JsVal.str uid) = false := by simpa using hu
      simp only [List.filter_cons, hk, this, Bool.false_eq_true, if_false]
      exact ih

theorem forall₂_sameExceptCredentials_append_self {l1 l2 : List JsObject}
    (h : List.Forall₂ sameExceptCredentials l1 l2) (row : JsObject) :
    List.Forall₂ sameExceptCredentials (l1 ++ [row]) (l2 ++ [row]) := by
  induction h with
  | nil => exact List.Forall₂.cons rfl List.Forall₂.nil
  | cons hab _ ih => exact List.Forall₂.cons hab ih

theorem selectSettings_sameExceptCredentials (sel : Option StoreError) (uid : String)
    {d1 d2 : Store} (hd : d1.sameExceptCredentials d2) :
    (∃ r1 r2, d1.selectSettings sel uid = Resp.ok r1 ∧ d2.selectSettings sel uid = Resp.ok r2
        ∧ sameExceptCredentials r1 r2)
    ∨ (∃ e, d1.selectSettings sel uid = Resp.fail e ∧ d2.selectSettings sel uid = Resp.fail e) := by
  cases sel with
  | some e => exact Or.inr ⟨e, rfl, rfl⟩
  | none =>
    have hf := forall₂_sameExceptCredentials_filter uid hd.2.2
    simp only [Store.selectSettings]
    revert hf
    generalize List.filter (fun r => r.get "user_id" == JsVal.str uid) d1.user_settings = l1
    generalize List.filter (fun r => r.get "user_id" == JsVal.str uid) d2.user_settings = l2
    intro hf
    cases hf with
    | nil => exact Or.inr ⟨PGRST116, rfl, rfl⟩
    | cons hab htl =>
      cases htl with
      | nil => exact Or.inl ⟨_, _, rfl, rfl, hab⟩
      | cons _ _ => exact Or.inr ⟨PGRST116, rfl, rfl⟩

theorem fetchSettings_sameExceptCredentials (sel ins : Option StoreError) (gen : JsObject)
    (user : Option String) {a1 a2 : App} {d1 d2 : Store}
    (ha : a1.sameExceptCredentials a2) (hd : d1.sameExceptCredentials d2) :
    (fetchSettings sel ins gen user a1 d1).1.sameExceptCredentials
        (fetchSettings sel ins gen user a2 d2).1
    ∧ (fetchSettings sel ins gen user a1 d1).2.sameExceptCredentials
        (fetchSettings sel ins gen user a2 d2).2 := by
  obtain ⟨h1, h2, h3, h4, h5, h6⟩ := ha
  cases user with
  | none => exact ⟨⟨h1, h2, h3, h4, h5, h6⟩, hd⟩
  | some uid =>
    rcases selectSettings_sameExceptCredentials sel uid hd with
      ⟨r1, r2, e1, e2, hr⟩ | ⟨e, e1, e2⟩
    · simp only [fetchSettings, e1, e2, Resp.ok]
      exact ⟨⟨h1, h2, h3, h4, h5, hr⟩, hd⟩
    · simp only [fetchSettings, e1, e2, Resp.fail]
      by_cases hc : e.code = "PGRST116"
      · simp only [hc, if_true]
        cases ins with
        | some e3 =>
          simp only [Store.insertSettings, Resp.fail]
          exact ⟨⟨h1, h2, h3, h4, by rw [h5], h6⟩, hd⟩
        | none =>
          simp only [Store.insertSettings, Resp.ok]
          exact ⟨⟨h1, h2, h3, h4, h5, rfl⟩, hd.1, hd.2.1,
            forall₂_sameExceptCredentials_append_self hd.2.2 _⟩
      · simp only [hc, if_false]
        exact ⟨⟨h1, h2, h3, h4, h5, h6⟩, hd⟩

theorem forall₂_sameExceptCredentials_patch (uid : String) {p1 p2 : JsObject}
    (hp : sameExceptCredentials p1 p2) {l1 l2 : List JsObject}
    (h : List.Forall₂ sameExceptCredentials l1 l2) :
    List.Forall₂ sameExceptCredentials
      (l1.map (fun r => if r.get "user_id" == JsVal.str uid then JsObject.spread r p1 else r))
      (l2.map (fun r => if r.get "user_id" == JsVal.str uid then JsObject.spread r p2 else r)) := by
  induction h with
  | nil => exact List.Forall₂.nil
  | @cons a b l1 l2 hab _ ih =>
    have hk : a.get "user_id" = b.get "user_id" := hab.get_eq "user_id" (by decide)
    simp only [List.map_cons, hk]
    refine List.Forall₂.cons ?_ ih
    split
    · simp only [sameExceptCredentials, JsObject.rest_spread] at hab hp ⊢
      rw [hab, hp]
    · exact hab

theorem updateSettings_sameExceptCredentials (upd : Option StoreError) (uid : String)
    {p1 p2 : JsObject} (hp : sameExceptCredentials p1 p2) {d1 d2 : Store}
    (hd : d1.sameExceptCredentials d2) :
    (d1.updateSettings upd p1 uid).1 = (d2.updateSettings upd p2 uid).1
    ∧ (d1.updateSettings upd p1 uid).2.sameExceptCredentials (d2.updateSettings upd p2 uid).2 := by
  cases upd with
  | some e => exact ⟨rfl, hd⟩
  | none => exact ⟨rfl, hd.1, hd.2.1, forall₂_sameExceptCredentials_patch uid hp hd.2.2⟩

theorem updateData_sameExceptCredentials {s1 s2 : JsObject} (h : sameExceptCredentials s1 s2) :
    sameExceptCredentials (updateData s1) (updateData s2) := by
  simp only [sameExceptCredentials, updateData] at h ⊢
  rw [JsObject.rest_rest_comm, h, JsObject.rest_rest_comm]

theorem monetizationData_eq {s1 s2 : JsObject} (h : sameExceptCredentials s1 s2) :
    monetizationData s1 = monetizationData s2 := by
  simp only [monetizationData, h.get_eq "ezoic_site_id" (by decide),
    h.get_eq "adsense_client_id" (by decide)]

theorem App.strip_settings_eq {a1 a2 : App} (h : a1.sameExceptCredentials a2) :
    { a1 with settings := [] } = { a2 with settings := [] } := by
  obtain ⟨h1, h2, h3, h4, h5, _⟩ := h
  cases a1; cases a2
  simp only at h1 h2 h3 h4 h5
  simp [h1, h2, h3, h4, h5]

theorem Store.strip_user_settings_eq {d1 d2 : Store} (h : d1.sameExceptCredentials d2) :
    { d1 with user_settings := [] } = { d2 with user_settings := [] } := by
  obtain ⟨h1, h2, _⟩ := h
  cases d1; cases d2
  simp only at h1 h2
  simp [h1, h2]

theorem DashAction.perform_sameExceptCredentials (a : DashAction) {a1 a2 : App} {d1 d2 : Store}
    (ha : a1.sameExceptCredentials a2) (hd : d1.sameExceptCredentials d2) :
    (a.perform (a1, d1)).1.sameExceptCredentials (a.perform (a2, d2)).1
    ∧ (a.perform (a1, d1)).2.sameExceptCredentials (a.perform (a2, d2)).2 := by
  have hs := ha.2.2.2.2.2
  cases a with
  | startAutomation =>
    obtain ⟨h1, h2, h3, h4, h5, h6⟩ := ha
    refine ⟨⟨?_, h2, h3, ?_, h5, h6⟩, hd⟩
    · simp [DashAction.perform, handleStartAutomation, App.toast, h1]
    · simp [DashAction.perform, handleStartAutomation, App.toast, h1, h4,
        h6.get_eq "post_frequency" (by decide)]
  | refreshStats revenue ctr =>
    obtain ⟨h1, h2, h3, h4, h5, h6⟩ := ha
    refine ⟨⟨h1, h2, ?_, ?_, h5, h6⟩, hd⟩
    · simp [DashAction.perform, handleRefreshStats, App.toast, h3]
    · simp [DashAction.perform, handleRefreshStats, App.toast, h4]
  | fetchSettings sel ins gen user =>
    exact fetchSettings_sameExceptCredentials sel ins gen user ha hd
  | fetchPosts now sel user =>
    simp only [DashAction.perform]
    rw [fetchPosts_frame now sel user a1 d1, fetchPosts_frame now sel user a2 d2,
      App.strip_settings_eq ha, Store.strip_user_settings_eq hd]
    exact ⟨⟨rfl, rfl, rfl, rfl, rfl, hs⟩, hd⟩
  | publishPost w upd now sel user postId =>
    simp only [DashAction.perform]
    rw [handlePublishPost_frame w upd now sel user postId a1 d1,
      handlePublishPost_frame w upd now sel user postId a2 d2,
      App.strip_settings_eq ha, Store.strip_user_settings_eq hd]
    exact ⟨⟨rfl, rfl, rfl, rfl, rfl, hs⟩, rfl, rfl, hd.2.2⟩
  | deletePost del now sel user postId =>
    simp only [DashAction.perform]
    rw [handleDeletePost_frame del now sel user postId a1 d1,
      handleDeletePost_frame del now sel user postId a2 d2,
      App.strip_settings_eq ha, Store.strip_user_settings_eq hd]
    exact ⟨⟨rfl, rfl, rfl, rfl, rfl, hs⟩, rfl, rfl, hd.2.2⟩
  | saveSettings upd uid =>
    obtain ⟨h1, h2, h3, h4, h5, h6⟩ := ha
    have hu := updateSettings_sameExceptCredentials upd uid
      (updateData_sameExceptCredentials h6) hd
    simp only [DashAction.perform, handleSaveSettings]
    rw [← hu.1]
    cases hr : (d1.updateSettings upd (updateData a1.settings) uid).1 with
    | none => exact ⟨⟨h1, h2, h3, by simp [App.toast, h4], h5, h6⟩, hu.2⟩
    | some e => exact ⟨⟨h1, h2, h3, by simp [App.toast, h4], h5, h6⟩, hu.2⟩
  | saveMonetization upd uid =>
    obtain ⟨h1, h2, h3, h4, h5, h6⟩ := ha
    have hu := updateSettings_sameExceptCredentials upd uid
      (show sameExceptCredentials (monetizationData a1.settings) (monetizationData a2.settings)
        from congrArg _ (monetizationData_eq h6)) hd
    simp only [DashAction.perform, handleSaveMonetization]
    rw [← hu.1]
    cases hr : (d1.updateSettings upd (monetizationData a1.settings) uid).1 with
    | none => exact ⟨⟨h1, h2, h3, by simp [App.toast, h4], h5, h6⟩, hu.2⟩
    | some e => exact ⟨⟨h1, h2, h3, by simp [App.toast, h4], h5, h6⟩, hu.2⟩

theorem DashAction.run_sameExceptCredentials (acts : List DashAction) {a1 a2 : App}
    {d1 d2 : Store} (ha : a1.sameExceptCredentials a2) (hd : d1.sameExceptCredentials d2) :
    (DashAction.run acts (a1, d1)).1.sameExceptCredentials (DashAction.run acts (a2, d2)).1
    ∧ (DashAction.run acts (a1, d1)).2.sameExceptCredentials
        (DashAction.run acts (a2, d2)).2 := by
  induction acts generalizing a1 a2 d1 d2 with
  | nil => exact ⟨ha, hd⟩
  | cons a acts ih =>
    have h := DashAction.perform_sameExceptCredentials a ha hd
    exact ih h.1 h.2

/-- C12: take two settings records that differ only in credential fields, the
same store and the same outcomes of the store calls.  After any sequence of
dashboard handlers (start or stop automation, refresh stats, fetch settings,
fetch posts, publish, delete, save settings, save monetization) the toasts
shown and the lines written to the console are the same in both runs. -/
theorem credentials_do_not_reach_messages (acts : List DashAction) (app : App) (db : Store)
    (settings2 : JsObject)
    (h : app.settings.rest credentialFields = settings2.rest credentialFields) :
    (DashAction.run acts (app, db)).1.toasts
        = (DashAction.run acts ({ app with settings := settings2 }, db)).1.toasts
    ∧ (DashAction.run acts (app, db)).1.console
        = (DashAction.run acts ({ app with settings := settings2 }, db)).1.console := by
  have hrun := DashAction.run_sameExceptCredentials acts
    (show app.sameExceptCredentials { app with settings := settings2 } from
      ⟨rfl, rfl, rfl, rfl, rfl, h⟩)
    (show db.sameExceptCredentials db from
      ⟨rfl, rfl, List.forall₂_same.mpr (fun _ _ => rfl)⟩)
  exact ⟨hrun.1.2.2.2.1, hrun.1.2.2.2.2.1⟩

/-- Witness of C12: two OpenAI keys, a save that is refused, then a start. -/
theorem credentials_do_not_reach_messages_witness :
    (DashAction.run [DashAction.saveSettings (some networkError) "u", DashAction.startAutomation]
      ({ App.init with settings :=
          [("openai_api_key", JsVal.str "sk-A"), ("post_frequency", JsVal.num 30 0)] },
        ⟨[], [], []⟩)).1.toasts
    = (DashAction.run [DashAction.saveSettings (some networkError) "u", DashAction.startAutomation]
      ({ App.init with settings :=
          [("openai_api_key", JsVal.str "sk-B"), ("post_frequency", JsVal.num 30 0)] },
        ⟨[], [], []⟩)).1.toasts :=
  (credentials_do_not_reach_messages
    [DashAction.saveSettings (some networkError) "u", DashAction.startAutomation]
    { App.init with settings :=
        [("openai_api_key", JsVal.str "sk-A"), ("post_frequency", JsVal.num 30 0)] }
    ⟨[], [], []⟩ [("openai_api_key", JsVal.str "sk-B"), ("post_frequency", JsVal.num 30 0)]
    (by decide)).1

/-! ## At most one post per entry -/

theorem Pipeline.createPost_wellFormed (s : Pipeline) (feedId : Nat) (e : Entry)
    (generated : Bool) (h : s.wellFormed) : (s.createPost feedId e generated).wellFormed := by
  unfold Pipeline.createPost
  by_cases hnew : s.isNew feedId e.id = true
  · rw [if_pos hnew]
    have hnot : (feedId, e.id) ∉ s.ledger := by
      simpa [Pipeline.isNew] using hnew
    refine ⟨?_, ?_⟩
    · simp only [List.map_append, List.map_cons, List.map_nil]
      rw [h.1]
    · show (s.ledger ++ [(feedId, e.id)]).Nodup
      rw [List.nodup_append]
      refine ⟨h.2, List.nodup_singleton _, ?_⟩
      intro x hx hx2
      rw [List.mem_singleton] at hx2
      exact hnot (hx2 ▸ hx)
  · rw [if_neg hnew]
    exact h

theorem Pipeline.step_wellFormed (s : Pipeline) (ev : PipelineEvent) (h : s.wellFormed) :
    (s.step ev).wellFormed := by
  cases ev with
  | fetch feedId entries => exact h
  | process run generated =>
    simp only [Pipeline.step]
    split
    · next feedId e later _ => exact Pipeline.createPost_wellFormed s feedId e generated h
    · exact h

theorem Pipeline.foldl_wellFormed (evs : List PipelineEvent) (s : Pipeline)
    (h : s.wellFormed) : (evs.foldl Pipeline.step s).wellFormed := by
  induction evs generalizing s with
  | nil => exact h
  | cons ev evs ih => exact ih _ (Pipeline.step_wellFormed s ev h)

theorem filter_key_length_le_one (feedId : Nat) (entryId : String) (l : List PipelinePost)
    (h : (l.map (fun p => (p.feedId, p.entryId))).Nodup) :
    (l.filter (fun p => p.feedId == feedId && p.entryId == entryId)).length ≤ 1 := by
  induction l with
  | nil => simp
  | cons a l ih =>
    rw [List.map_cons, List.nodup_cons] at h
    by_cases hk : a.feedId = feedId ∧ a.entryId = entryId
    · have hnone : l.filter (fun p => p.feedId == feedId && p.entryId == entryId) = [] := by
        rw [List.filter_eq_nil_iff]
        intro p hp hpk
        simp only [Bool.and_eq_true, beq_iff_eq] at hpk
        apply h.1
        rw [List.mem_map]
        exact ⟨p, hp, by rw [hpk.1, hpk.2, hk.1, hk.2]⟩
      simp [List.filter_cons, hk.1, hk.2, hnone]
    · have : (a.feedId == feedId && a.entryId == entryId) = false := by
        simpa using hk
      rw [List.filter_cons, this]
      exact ih h.2

/-- C13: in the pipeline of the specification, after any sequence of steps of
any runs (runs of one feed started before an earlier one has finished, and
entries repeated inside a run, included) at most one post exists for each pair
of feed and entry identifier. -/
theorem at_most_one_post_per_entry (evs : List PipelineEvent) (feedId : Nat)
    (entryId : String) : ((Pipeline.run evs).postsOf feedId entryId).length ≤ 1 := by
  have h : (Pipeline.run evs).wellFormed :=
    Pipeline.foldl_wellFormed evs ⟨[], [], []⟩ ⟨rfl, List.nodup_nil⟩
  apply filter_key_length_le_one
  rw [h.1]
  exact h.2

/-- The scenario named in C13: feed 1 is fetched twice before the first run has
processed anything, each fetch returning entry `abc123` twice; after all four
entries have been handled there is one post. -/
theorem duplicate_entries_one_post :
    (Pipeline.run
      [ PipelineEvent.fetch 1 [⟨"abc123", "X", "..."⟩, ⟨"abc123", "X", "..."⟩],
        PipelineEvent.fetch 1 [⟨"abc123", "X", "..."⟩, ⟨"abc123", "X", "..."⟩],
        PipelineEvent.process 0 true, PipelineEvent.process 1 true,
        PipelineEvent.process 0 true, PipelineEvent.process 1 false ]).posts
      = [⟨1, "abc123", "X", "draft"⟩] := by
  decide

/-! ## Published today -/

theorem toDateString_eq_iff (c : Clock) (t : Nat) :
    toDateString c t = toDateString c c.time ↔ fallsOnCurrentDay c t := by
  unfold toDateString fallsOnCurrentDay
  constructor
  · intro h
    refine ⟨c.localTime t / 86400000, ?_, ?_, ?_, ?_⟩ <;> omega
  · rintro ⟨d, h1, h2, h3, h4⟩
    omega

theorem fetchPosts_of_data (now : Clock) (sel : Option StoreError) (uid : String) (app : App)
    (db : Store) (data : List Post) (h : (db.selectPosts sel uid).1.data = some data) :
    (fetchPosts now sel (some uid) app db).posts = data
    ∧ (fetchPosts now sel (some uid) app db).stats
        = { app.stats with
            totalPosts := (db.selectPosts sel uid).2.getD 0,
            publishedToday := (data.filter (fun p =>
              p.status == "published"
                && toDateString now p.created_at == toDateString now now.time)).length } := by
  cases sel with
  | some e => simp [Store.selectPosts, Resp.fail] at h
  | none =>
    simp only [Store.selectPosts, Resp.ok, Option.some.injEq] at h
    subst h
    exact ⟨rfl, rfl⟩

theorem fetchPosts_keeps_revenue (now : Clock) (sel : Option StoreError) (user : Option String)
    (app : App) (db : Store) :
    (fetchPosts now sel user app db).stats.totalRevenue = app.stats.totalRevenue
    ∧ (fetchPosts now sel user app db).stats.avgCtr = app.stats.avgCtr := by
  cases user with
  | none => exact ⟨rfl, rfl⟩
  | some uid => cases sel <;> exact ⟨rfl, rfl⟩

/-- C21: when the store returns the list `data` to `fetchPosts`, the local posts
become `data` and `stats.publishedToday` becomes the number of posts of `data`
whose status is `published` and whose `created_at` falls on the local calendar
day of the call: it is the length of `data` filtered by any test that holds
exactly of those posts, the test of the code is such a test, and the number is
at most the length of `data`.  Whatever the store returns, `stats.totalRevenue`
and `stats.avgCtr` are as before. -/
theorem publishedToday_counts_created_today (now : Clock) (sel : Option StoreError)
    (uid : String) (app : App) (db : Store) :
    (∀ data, (db.selectPosts sel uid).1.data = some data →
      (fetchPosts now sel (some uid) app db).posts = data
      ∧ (∀ q : Post → Bool,
          (∀ p, q p = true ↔ (p.status = "published" ∧ fallsOnCurrentDay now p.created_at)) →
          (fetchPosts now sel (some uid) app db).stats.publishedToday = (data.filter q).length)
      ∧ (∀ p : Post, (p.status == "published"
            && toDateString now p.created_at == toDateString now now.time) = true
          ↔ (p.status = "published" ∧ fallsOnCurrentDay now p.created_at))
      ∧ (fetchPosts now sel (some uid) app db).stats.publishedToday ≤ data.length)
    ∧ (∀ user, (fetchPosts now sel user app db).stats.totalRevenue = app.stats.totalRevenue
        ∧ (fetchPosts now sel user app db).stats.avgCtr = app.stats.avgCtr) := by
  have hcode : ∀ p : Post, (p.status == "published"
        && toDateString now p.created_at == toDateString now now.time) = true
      ↔ (p.status = "published" ∧ fallsOnCurrentDay now p.created_at) := by
    intro p
    rw [Bool.and_eq_true, beq_iff_eq, beq_iff_eq, toDateString_eq_iff]
  refine ⟨fun data h => ?_, fun user => fetchPosts_keeps_revenue now sel user app db⟩
  obtain ⟨hposts, hstats⟩ := fetchPosts_of_data now sel uid app db data h
  refine ⟨hposts, fun q hq => ?_, hcode, ?_⟩
  · rw [hstats]
    show (List.filter _ data).length = _
    congr 1
    apply List.filter_congr
    intro p _
    rw [Bool.eq_iff_iff, hcode p, hq p]
  · rw [hstats]
    exact List.length_filter_le _ _

/-- Witness of C21: one published post, created on 1 January 1970 and read back
at 01:00 UTC of 2 January, is not counted. -/
theorem publishedToday_counts_created_today_witness :
    (fetchPosts (utc 90000000) none (some "u") App.init
        ⟨[], [{ draftPost with status := "published", wordpress_id := some 5 }],
          []⟩).stats.publishedToday = 0 := by
  have h := (publishedToday_counts_created_today (utc 90000000) none "u" App.init
    ⟨[], [{ draftPost with status := "published", wordpress_id := some 5 }], []⟩).1
    [{ draftPost with status := "published", wordpress_id := some 5 }]
    (by simp [Store.selectPosts, Resp.ok, draftPost])
  rw [h.2.1 _ h.2.2.1]
  decide

/-- The day test at work.  At 01:00 UTC of 2 January 1970 a post created at 00:05
UTC of 1 January is not of today, and one created at the last millisecond of
2 January UTC is.  On a clock five hours behind, the call is at 20:00 of
1 January: neither of those two posts is of today, and a post created at 05:00
UTC of 1 January, local midnight, is.  The time of publishing plays no part. -/
theorem publishedToday_by_creation_day :
    (toDateString (utc 90000000) 300000 == toDateString (utc 90000000) 90000000) = false
    ∧ (toDateString (utc 90000000) 172799999 == toDateString (utc 90000000) 90000000) = true
    ∧ (toDateString (easternStandard 90000000) 300000
        == toDateString (easternStandard 90000000) 90000000) = false
    ∧ (toDateString (easternStandard 90000000) 172799999
        == toDateString (easternStandard 90000000) 90000000) = false
    ∧ (toDateString (easternStandard 90000000) 18000000
        == toDateString (easternStandard 90000000) 90000000) = true := by
  decide

end Horizon
